import Mathlib

/-!
# Verification of the taskara task tracker core

A shallow embedding, in Lean 4, of the parts of the `agentsea/taskara`
repository that the checked claims speak about: the task aggregate and its
save/version logic (`src/taskara/task.py`), the pending-reviewers projection
(`src/taskara/task.py` together with `src/taskara/review.py`), the HTTP route
handlers for task creation, retrieval, update and action recording
(`src/taskara/server/router/tasks.py`), the benchmark/eval materialisation
(`src/taskara/benchmark.py`), and the credential vault
(`Task.encrypt_device` / `Task.decrypt_device`).

External collaborator libraries (skillpacks episodes and reviews, threadmem
threads, devicebay devices, pydantic serialisation, the Fernet cipher,
Python's `base64` and `json` modules, `hashlib.sha256`) are embedded by the
contracts the repository relies on; `json.dumps(..., sort_keys=True)` and
SHA-256 are implemented concretely because version hashes are compared
byte for byte.

Python integers, byte values and 32-bit words are modelled as `Nat` with
explicit `% 2 ^ 32` reductions where the source relies on 32-bit wrap-around
(inside SHA-256).  Timestamps are modelled as whole seconds (`Nat`), matching
the float rendering `n.0` that `json.dumps` produces for whole floats.
-/

namespace Taskara

/-! ## Core data model -/

/-- Task status enumeration, from `TaskStatus` in `src/taskara/task.py`. -/
inductive TaskStatus where
  | defined
  | creat
  | inProgress
  | finished
  | failed
  | error
  | waiting
  | canceling
  | canceled
  | timedOut
  deriving DecidableEq, Repr

/-- The wire string of each status (`TaskStatus(...).value` in the source). -/
def TaskStatus.value : TaskStatus → String
  | .defined => "defined"
  | .creat => "created"
  | .inProgress => "in progress"
  | .finished => "finished"
  | .failed => "failed"
  | .error => "error"
  | .waiting => "waiting"
  | .canceling => "canceling"
  | .canceled => "canceled"
  | .timedOut => "timed out"

/-- Parse a status string, modelling the `TaskStatus(status)` enum lookup
(which raises on an unknown value, hence `Option`). -/
def TaskStatus.ofString (s : String) : Option TaskStatus :=
  if s = "defined" then some .defined
  else if s = "created" then some .creat
  else if s = "in progress" then some .inProgress
  else if s = "finished" then some .finished
  else if s = "failed" then some .failed
  else if s = "error" then some .error
  else if s = "waiting" then some .waiting
  else if s = "canceling" then some .canceling
  else if s = "canceled" then some .canceled
  else if s = "timed out" then some .timedOut
  else none

/-- A review, modelling the skillpacks `Review` objects the task code reads.
The repository's satisfaction checks (`Task._episode_satified`,
`Task._review_satisfied`) inspect only `review.reviewer`; `approved` is kept
because reviews carry it on the wire. -/
structure Review where
  reviewer : String
  approved : Bool
  deriving DecidableEq, Repr

/-- One recorded action event of an episode, modelling the skillpacks
`ActionEvent` as the router reads it: its id, its `action.name`, and its
per-action reviews. -/
structure Act where
  id : String
  name : String
  reviews : List Review
  deriving DecidableEq, Repr

/-- An episode: the id plus the insertion-ordered action events, modelling the
skillpacks `Episode` (`episode.actions`). -/
structure EpisodeM where
  id : String
  actions : List Act
  deriving DecidableEq, Repr

/-- A review requirement, from `ReviewRequirement.__init__` in
`src/taskara/review.py` (the fields the pending recompute reads). -/
structure ReviewRequirement where
  id : String
  taskId : String
  numberRequired : Nat
  users : List String
  agents : List String
  groups : List String
  deriving DecidableEq, Repr

/-- A row of the `pending_reviewers` table, from `PendingReviewersRecord` in
`src/taskara/db/models.py` (the generated primary key is irrelevant to every
claim and omitted). -/
structure PendingRow where
  taskId : String
  userId : Option String
  agentId : Option String
  requirementId : Option String
  deriving DecidableEq, Repr

/-! ## Canonical JSON

`Task.generate_version_hash` serialises the V1 projection with
`json.dumps(self.to_v1().model_dump(), sort_keys=True)`.  The `Json` type
mirrors the Python values that arise in a `model_dump` of `V1Task`:
`None`, bools, ints, whole-second floats (rendered `n.0` as Python renders
whole floats), strings, lists and dicts.  `Json.dumps` reproduces
`json.dumps(..., sort_keys=True)` with its default separators
(`", "` and `": "`) and ASCII escaping. -/

inductive Json where
  | null
  | bool (b : Bool)
  | num (n : Int)
  | flo (n : Nat)
  | str (s : String)
  | arr (xs : List Json)
  | obj (kvs : List (String × Json))

/-- A JSON array from a Lean list of members (constructor alias). -/
def Json.arrL (xs : List Json) : Json := .arr xs

/-- A JSON object from a Lean association list of members (constructor
alias). -/
def Json.objL (kvs : List (String × Json)) : Json := .obj kvs

/-- Four lowercase hex digits, as Python's `\uXXXX` escapes print them. -/
def hexDigit (n : Nat) : Char :=
  if n < 10 then Char.ofNat (48 + n) else Char.ofNat (87 + n)

/-- Four-digit lowercase hex rendering of a codepoint below `0x10000`. -/
def hex4 (n : Nat) : String :=
  String.mk [hexDigit (n / 4096 % 16), hexDigit (n / 256 % 16),
             hexDigit (n / 16 % 16), hexDigit (n % 16)]

/-- Escape one character as Python's `json.dumps` (default `ensure_ascii=True`)
does: the two-character escapes, `\uXXXX` for other control characters and for
non-ASCII codepoints of the basic plane (the embedding's strings stay below
`0x10000`, so surrogate pairs never arise). -/
def jsonEscapeChar (c : Char) : String :=
  if c = '"' then "\\\""
  else if c = '\\' then "\\\\"
  else if c = '\n' then "\\n"
  else if c = '\t' then "\\t"
  else if c = '\r' then "\\r"
  else if c.toNat = 8 then "\\b"
  else if c.toNat = 12 then "\\f"
  else if c.toNat < 32 then "\\u" ++ hex4 c.toNat
  else if c.toNat < 127 then String.singleton c
  else "\\u" ++ hex4 c.toNat

/-- Escape a whole string for a JSON string literal. -/
def jsonEscape (s : String) : String :=
  String.join (s.data.map jsonEscapeChar)

/-- Comma-join rendered members (the default `", "` item separator). -/
def joinCommaStr : List String → String
  | [] => ""
  | [x] => x
  | x :: y :: xs => x ++ ", " ++ joinCommaStr (y :: xs)

/-- Codepoint-lexicographic order on character lists — exactly Python's
`str <`, which is what `sort_keys=True` sorts by. -/
def charListLt : List Char → List Char → Bool
  | [], [] => false
  | [], _ :: _ => true
  | _ :: _, [] => false
  | c :: cs, d :: ds =>
      if c.toNat < d.toNat then true
      else if d.toNat < c.toNat then false
      else charListLt cs ds

/-- Codepoint-lexicographic order on strings (Python's `str <`). -/
def strLt (a b : String) : Bool := charListLt a.data b.data

/-- Insert one rendered `(key, fragment)` pair into a key-sorted list
(codepoint order, the order Python's `sort_keys=True` uses; stable, equal
keys keep their order). -/
def insertByKey (kv : String × String) : List (String × String) → List (String × String)
  | [] => [kv]
  | p :: ps => if strLt kv.1 p.1 then kv :: p :: ps else p :: insertByKey kv ps

/-- Sort rendered object members by key (`sort_keys=True`).  Sorting the
rendered `(key, fragment)` pairs equals sorting the keys before rendering,
because a member's rendering does not depend on its position. -/
def sortByKey (ps : List (String × String)) : List (String × String) :=
  ps.foldr insertByKey []

/-- `json.dumps(value, sort_keys=True)` with the default separators
(`", "` between members, `": "` after a key), structurally recursive on a
recursion-depth budget.  Sorting the rendered `(key, fragment)` pairs equals
sorting the keys before rendering, because a member's rendering does not
depend on its position. -/
def Json.dumpsF : Nat → Json → String
  | 0, _ => ""
  | fuel + 1, j =>
    match j with
    | .null => "null"
    | .bool true => "true"
    | .bool false => "false"
    | .num n => toString n
    | .flo n => toString n ++ ".0"
    | .str s => "\"" ++ jsonEscape s ++ "\""
    | .arr xs => "[" ++ joinCommaStr (xs.map (Json.dumpsF fuel)) ++ "]"
    | .obj kvs =>
        "\x7b" ++
          joinCommaStr
            ((sortByKey (kvs.map (fun kv =>
                (kv.1, "\"" ++ jsonEscape kv.1 ++ "\": " ++ Json.dumpsF fuel kv.2)))).map
              Prod.snd) ++
          "\x7d"

/-- `json.dumps(value, sort_keys=True)`.  The depth budget of `1000` mirrors
CPython's default recursion limit: `json.dumps` raises `RecursionError` on
values nested deeper, so every value the Python code can actually serialise
is rendered exactly (the budget cannot run out on them). -/
def Json.dumps (j : Json) : String :=
  Json.dumpsF 1000 j

/-- An optional string as a JSON value. -/
def optStr : Option String → Json
  | some s => .str s
  | none => .null

/-! ## The device descriptor (Credential Vault data)

Modelled from the spec: `V1Device` is an opaque descriptor from the external
`devicebay` library (§3 calls `device` an "opaque descriptor"); the vault
only ever serialises it with `model_dump_json` and re-validates it with
`model_validate_json`.  The embedding carries the descriptor as one ASCII
payload string. -/
structure V1Device where
  descriptor : String
  deriving DecidableEq, Repr

/-- `device.model_dump_json()` rendered as canonical JSON of the descriptor. -/
def V1Device.dumpJson (d : V1Device) : String :=
  Json.dumps (.objL [("descriptor", .str d.descriptor)])

/-- The device's `model_dump()` as a JSON value (used inside the V1 task
projection). -/
def V1Device.toJson (d : V1Device) : Json :=
  .objL [("descriptor", .str d.descriptor)]

/-- A conversation thread reference.  Modelled from the spec: threads are
opaque to the core (§3 "Thread / RoleMessage — opaque to the core"); the task
only needs each thread's id and name (for `ensure_thread`'s idempotence by
name), and renders threads opaquely in its V1 projection. -/
structure ThreadM where
  id : String
  name : String
  deriving DecidableEq, Repr

/-! ## The Task aggregate (`Task` in `src/taskara/task.py`)

The attributes `Task.__init__` stores, with external child objects carried as
the embedding needs them: threads as their opaque V1 dumps (only ever
rendered), prompts as their id sequence, the episode as id plus action
events. -/
structure Task where
  id : String
  description : Option String
  maxSteps : Nat
  ownerId : Option String
  project : Option String
  device : Option V1Device
  deviceType : Option Json
  status : TaskStatus
  created : Nat
  started : Nat
  completed : Nat
  assignedTo : Option String
  assignedType : Option String
  error : Option String
  output : Option String
  parameters : List (String × Json)
  reviews : List Review
  reviewRequirements : List ReviewRequirement
  remote : Option String
  prompts : List String
  parentId : Option String
  labels : List (String × String)
  tags : List String
  episode : Option EpisodeM
  expectSchema : Option Json
  authToken : Option String
  version : Option String
  threads : List ThreadM

/-- `Review.to_v1().model_dump()` for the fields the embedding carries
(the skillpacks `V1Review` is external; §3 lists its shape). -/
def Review.toV1Json (r : Review) : Json :=
  .objL [("approved", .bool r.approved), ("reviewer", .str r.reviewer)]

/-- `ReviewRequirement.to_v1().model_dump()`, from
`ReviewRequirement.to_v1` in `src/taskara/review.py` and the
`V1ReviewRequirement` fields in `src/taskara/server/models.py`
(`id`, `task_id`, `users`, `agents`, `groups`, `number_required`). -/
def ReviewRequirement.toV1Json (r : ReviewRequirement) : Json :=
  .objL [("agents", .arrL (r.agents.map Json.str)),
        ("groups", .arrL (r.groups.map Json.str)),
        ("id", .str r.id),
        ("number_required", .num r.numberRequired),
        ("task_id", .str r.taskId),
        ("users", .arrL (r.users.map Json.str))]

/-- A thread's `to_v1().model_dump()`.  Modelled from the spec: the threadmem
`V1RoleThread` is external; the embedding renders the two fields it carries. -/
def ThreadM.toV1Json (th : ThreadM) : Json :=
  .objL [("id", .str th.id), ("name", .str th.name)]

/-- `task.to_v1().model_dump()` from `Task.to_v1` in `src/taskara/task.py`
(lines 1236-1283) and the `V1Task` field list in
`src/taskara/server/models.py`: every `V1Task` field, with `description`
defaulted to `""`, `status` as its enum value string, and the episode id (or
`None` when no episode is set). -/
def Task.toV1Json (t : Task) : Json :=
  .objL [
    ("assigned_to", optStr t.assignedTo),
    ("assigned_type", optStr t.assignedType),
    ("auth_token", optStr t.authToken),
    ("completed", .flo t.completed),
    ("created", .flo t.created),
    ("description", .str (t.description.getD "")),
    ("device", match t.device with | some d => d.toJson | none => .null),
    ("device_type", t.deviceType.getD .null),
    ("episode_id", match t.episode with | some e => .str e.id | none => .null),
    ("error", optStr t.error),
    ("expect_schema", t.expectSchema.getD .null),
    ("id", .str t.id),
    ("labels", .objL (t.labels.map (fun kv => (kv.1, Json.str kv.2)))),
    ("max_steps", .num t.maxSteps),
    ("output", optStr t.output),
    ("owner_id", optStr t.ownerId),
    ("parameters", .objL t.parameters),
    ("parent_id", optStr t.parentId),
    ("project", optStr t.project),
    ("prompts", .arrL (t.prompts.map Json.str)),
    ("remote", optStr t.remote),
    ("review_requirements", .arrL (t.reviewRequirements.map ReviewRequirement.toV1Json)),
    ("reviews", .arrL (t.reviews.map Review.toV1Json)),
    ("started", .flo t.started),
    ("status", .str t.status.value),
    ("tags", .arrL (t.tags.map Json.str)),
    ("threads", .arrL (t.threads.map ThreadM.toV1Json)),
    ("version", optStr t.version)]

/-! ## SHA-256 (`hashlib.sha256(...).hexdigest()`)

A byte-level implementation of FIPS 180-4 SHA-256 over `Nat`, with 32-bit
words kept below `2 ^ 32` by explicit `% 4294967296` reductions.  Structural
recursion throughout so the kernel can evaluate digests. -/

/-- Reduce to a 32-bit word. -/
def w32 (n : Nat) : Nat := n % 4294967296

/-- Right-rotate a 32-bit word by `n` places (for `x < 2 ^ 32`). -/
def rotr (n x : Nat) : Nat := x / 2 ^ n + x % 2 ^ n * 2 ^ (32 - n)

/-- The small sigma-0 message-schedule function. -/
def ssig0 (x : Nat) : Nat := rotr 7 x ^^^ rotr 18 x ^^^ x / 2 ^ 3

/-- The small sigma-1 message-schedule function. -/
def ssig1 (x : Nat) : Nat := rotr 17 x ^^^ rotr 19 x ^^^ x / 2 ^ 10

/-- The big sigma-0 compression function. -/
def bsig0 (x : Nat) : Nat := rotr 2 x ^^^ rotr 13 x ^^^ rotr 22 x

/-- The big sigma-1 compression function. -/
def bsig1 (x : Nat) : Nat := rotr 6 x ^^^ rotr 11 x ^^^ rotr 25 x

/-- The choose function (32-bit complement written as subtraction). -/
def chF (x y z : Nat) : Nat := (x &&& y) ^^^ ((4294967295 - x) &&& z)

/-- The majority function. -/
def majF (x y z : Nat) : Nat := (x &&& y) ^^^ (x &&& z) ^^^ (y &&& z)

/-- Big-endian bytes of a number, fixed width `k`. -/
def natToBytesBE : Nat → Nat → List Nat
  | 0, _ => []
  | k + 1, n => natToBytesBE k (n / 256) ++ [n % 256]

/-- SHA-256 padding: append `0x80`, zeros to 56 mod 64, then the bit length
as 8 big-endian bytes. -/
def sha256pad (msg : List Nat) : List Nat :=
  let z := (119 - msg.length % 64) % 64
  msg ++ [128] ++ List.replicate z 0 ++ natToBytesBE 8 (8 * msg.length)

/-- Split into 64-byte blocks (fuel-driven; callers pass the length). -/
def chunks64 : Nat → List Nat → List (List Nat)
  | 0, _ => []
  | _, [] => []
  | fuel + 1, bs => bs.take 64 :: chunks64 fuel (bs.drop 64)

/-- Big-endian 32-bit words from bytes. -/
def bytesToWords : List Nat → List Nat
  | a :: b :: c :: d :: rest => (((a * 256 + b) * 256 + c) * 256 + d) :: bytesToWords rest
  | _ => []

/-- Extend the 16 message words to 64 (48 extension steps). -/
def shaExtend : Nat → List Nat → List Nat
  | 0, w => w
  | fuel + 1, w =>
      let i := w.length
      let nw := w32 (ssig1 (w.getD (i - 2) 0) + w.getD (i - 7) 0 +
        ssig0 (w.getD (i - 15) 0) + w.getD (i - 16) 0)
      shaExtend fuel (w ++ [nw])

/-- The eight working variables of the compression loop. -/
structure H8 where
  a : Nat
  b : Nat
  c : Nat
  d : Nat
  e : Nat
  f : Nat
  g : Nat
  h : Nat

/-- The 64 round constants. -/
def sha256K : List Nat :=
  [1116352408, 1899447441, 3049323471, 3921009573, 961987163, 1508970993,
   2453635748, 2870763221, 3624381080, 310598401, 607225278, 1426881987,
   1925078388, 2162078206, 2614888103, 3248222580, 3835390401, 4022224774,
   264347078, 604807628, 770255983, 1249150122, 1555081692, 1996064986,
   2554220882, 2821834349, 2952996808, 3210313671, 3336571891, 3584528711,
   113926993, 338241895, 666307205, 773529912, 1294757372, 1396182291,
   1695183700, 1986661051, 2177026350, 2456956037, 2730485921, 2820302411,
   3259730800, 3345764771, 3516065817, 3600352804, 4094571909, 275423344,
   430227734, 506948616, 659060556, 883997877, 958139571, 1322822218,
   1537002063, 1747873779, 1955562222, 2024104815, 2227730452, 2361852424,
   2428436474, 2756734187, 3204031479, 3329325298]

/-- One compression round. -/
def shaRound (s : H8) (k w : Nat) : H8 :=
  let t1 := w32 (s.h + bsig1 s.e + chF s.e s.f s.g + k + w)
  let t2 := w32 (bsig0 s.a + majF s.a s.b s.c)
  ⟨w32 (t1 + t2), s.a, s.b, s.c, w32 (s.d + t1), s.e, s.f, s.g⟩

/-- Compress one 64-byte block into the running hash. -/
def shaBlock (h0 : H8) (block : List Nat) : H8 :=
  let w := shaExtend 48 (bytesToWords block)
  let s := (sha256K.zip w).foldl (fun s kw => shaRound s kw.1 kw.2) h0
  ⟨w32 (h0.a + s.a), w32 (h0.b + s.b), w32 (h0.c + s.c), w32 (h0.d + s.d),
   w32 (h0.e + s.e), w32 (h0.f + s.f), w32 (h0.g + s.g), w32 (h0.h + s.h)⟩

/-- The SHA-256 initial hash value. -/
def sha256init : H8 :=
  ⟨1779033703, 3144134277, 1013904242, 2773480762,
   1359893119, 2600822924, 528734635, 1541459225⟩

/-- Eight lowercase hex digits of a 32-bit word. -/
def wordHex (n : Nat) : String :=
  String.mk [hexDigit (n / 16 ^ 7 % 16), hexDigit (n / 16 ^ 6 % 16),
    hexDigit (n / 16 ^ 5 % 16), hexDigit (n / 16 ^ 4 % 16),
    hexDigit (n / 16 ^ 3 % 16), hexDigit (n / 16 ^ 2 % 16),
    hexDigit (n / 16 % 16), hexDigit (n % 16)]

/-- `hashlib.sha256(bytes).hexdigest()`: the lowercase hex digest of a byte
sequence. -/
def sha256Hex (msg : List Nat) : String :=
  let padded := sha256pad msg
  let s := (chunks64 padded.length padded).foldl shaBlock sha256init
  wordHex s.a ++ wordHex s.b ++ wordHex s.c ++ wordHex s.d ++
    wordHex s.e ++ wordHex s.f ++ wordHex s.g ++ wordHex s.h

/-- UTF-8 bytes of an ASCII string (`str.encode("utf-8")`; every string the
hashing path produces is ASCII because `json.dumps` escapes non-ASCII). -/
def strBytes (s : String) : List Nat := s.data.map Char.toNat

/-! ## Version hash, save and copy (`src/taskara/task.py`) -/

/-- `Task.generate_version_hash` (lines 424-427):
`hashlib.sha256(json.dumps(self.to_v1().model_dump(), sort_keys=True)
.encode("utf-8")).hexdigest()`. -/
def Task.generateVersionHash (t : Task) : String :=
  sha256Hex (strBytes (Json.dumps t.toV1Json))

/-- `Task.save` (lines 1083-1147), its effect on the task object.  The hash of
the projection is computed first, at entry (so with the pre-save `version`
field inside it); then `_version` is assigned; the local branch then creates
an episode when none is set (fresh id passed explicitly).  The remote branch
assigns `_version` identically and does not touch the episode; the database
and HTTP effects carry no further task-object state. -/
def Task.save (t : Task) (freshEpisodeId : String) : Task :=
  let newVersion := t.generateVersionHash
  let t1 := { t with version := some newVersion }
  match t1.episode with
  | none => { t1 with episode := some ⟨freshEpisodeId, []⟩ }
  | some _ => t1

/-- `Task.copy` (lines 789-812): `copy.deepcopy(self)` (value semantics —
every field keeps its contents), then a fresh id, `created = now`,
`started = completed = 0.0`, `status = DEFINED`, and
`_version = copied_task.generate_version_hash()` computed on the reset copy
(whose `version` field still holds the source's version). -/
def Task.copy (t : Task) (newId : String) (now : Nat) : Task :=
  let c := { t with id := newId, created := now, started := 0, completed := 0,
                    status := TaskStatus.defined }
  { c with version := some c.generateVersionHash }

/-! ## The pending-reviewers projection
(`PendingReviewers` in `src/taskara/review.py`,
`Task.update_pending_reviews` in `src/taskara/task.py`) -/

/-- The filter `ensure_pending_reviewer` / `remove_pending_reviewer` build
when called from `Task.update_pending_reviews`: both listed users and listed
agents are passed through the `user=` keyword, so the query filters on
`task_id`, `user_id` and `requirement_id` (never on `agent_id`). -/
def pendingMatches (r : PendingRow) (t u rid : String) : Bool :=
  r.taskId = t && r.userId = some u && r.requirementId = some rid

/-- `PendingReviewers.ensure_pending_reviewer` (review.py lines 72-109), as
called with `user=...` and `requirement_id=...`: return unchanged when a
matching row exists, else append a row with `user_id` set and `agent_id`
empty. -/
def ensurePendingReviewer (tbl : List PendingRow) (t u rid : String) : List PendingRow :=
  if tbl.any (fun r => pendingMatches r t u rid) then tbl
  else tbl ++ [⟨t, some u, none, some rid⟩]

/-- `PendingReviewers.remove_pending_reviewer` (review.py lines 111-135), as
called with `user=...` and `requirement_id=...`: delete the first matching
row, if any (`query.first()` then `db.delete`). -/
def removePendingReviewer (tbl : List PendingRow) (t u rid : String) : List PendingRow :=
  tbl.eraseP (fun r => pendingMatches r t u rid)

/-- `Task._episode_satified` (task.py lines 832-846): every action of the
episode has some review by `user`. -/
def episodeSatified (ep : EpisodeM) (user : String) : Bool :=
  ep.actions.all (fun a => a.reviews.any (fun r => r.reviewer = user))

/-- `Task._review_satisfied` (task.py lines 848-854): some review of the task
itself is by `user`. -/
def Task.reviewSatisfied (t : Task) (user : String) : Bool :=
  t.reviews.any (fun r => r.reviewer = user)

/-- Both clauses of §4.6 requirement satisfaction for one party: every action
reviewed by the party and a task-level review by the party. -/
def Task.partySatisfied (t : Task) (ep : EpisodeM) (user : String) : Bool :=
  episodeSatified ep user && t.reviewSatisfied user

/-- The recompute step of `Task.update_pending_reviews` (task.py lines
856-904) for a single requirement: count the listed parties
(`[*req.agents, *req.users]`, duplicates counted as the source does) whose
episode and review clauses both hold; at or above `number_required` remove
every listed user's and then every listed agent's row for this requirement,
below it ensure each of them is present. -/
def updateForRequirement (t : Task) (ep : EpisodeM) (tbl : List PendingRow)
    (req : ReviewRequirement) : List PendingRow :=
  if req.numberRequired ≤
      ((req.agents ++ req.users).filter (fun u => t.partySatisfied ep u)).length then
    req.agents.foldl (fun a u => removePendingReviewer a t.id u req.id)
      (req.users.foldl (fun a u => removePendingReviewer a t.id u req.id) tbl)
  else
    req.agents.foldl (fun a u => ensurePendingReviewer a t.id u req.id)
      (req.users.foldl (fun a u => ensurePendingReviewer a t.id u req.id) tbl)

/-- `Task.update_pending_reviews` (task.py lines 856-904) as a function of the
pending table.  The source re-reads `self.episode` for each listed party and
raises `ValueError("episode not set")` when it is missing; the embedding
hoists that check to the front (`none` models the raise) — the two differ
only on an episodeless task none of whose requirements lists a party, a state
no claim touches. -/
def Task.updatePendingReviews (t : Task) (tbl : List PendingRow) :
    Option (List PendingRow) :=
  match t.episode with
  | none => none
  | some ep => some (t.reviewRequirements.foldl (updateForRequirement t ep) tbl)

/-! ## Action recording (`record_action` in
`src/taskara/server/router/tasks.py`) -/

/-- `episode.delete_action(id)`: remove the action events carrying `i` as id
(the skillpacks collaborator deletes the record keyed by that id). -/
def EpisodeM.deleteAction (e : EpisodeM) (i : String) : EpisodeM :=
  { e with actions := e.actions.filter (fun a => a.id ≠ i) }

/-- `episode.record_event(event)`: append, per the §3 contract that insertion
order defines the episode order (`Task.record_action_event`, task.py lines
762-787, forwards to it after requiring the episode to be set). -/
def EpisodeM.recordEvent (e : EpisodeM) (a : Act) : EpisodeM :=
  { e with actions := e.actions ++ [a] }

/-- The episode effect of `record_action` (router lines 540-571), for a task
whose episode is present: skip everything when the last action is already
named `end`; when an `end` arrives right after a `mouse_move`, delete that
last action by id; then append the new event. -/
def recordActionRoute (e : EpisodeM) (v : Act) : EpisodeM :=
  match e.actions.getLast? with
  | some lastAct =>
      if lastAct.name = "end" then e
      else
        let e1 :=
          if v.name = "end" ∧ lastAct.name = "mouse_move" then
            e.deleteAction lastAct.id
          else e
        e1.recordEvent v
  | none => e.recordEvent v

/-! ## Task construction (`Task.__init__`, task.py lines 76-146) -/

/-- The keyword arguments of `Task.__init__` with their Python defaults. -/
structure TaskInitArgs where
  description : Option String := none
  maxSteps : Nat := 30
  ownerId : Option String := none
  project : Option String := none
  device : Option V1Device := none
  deviceType : Option Json := none
  expectSchema : Option Json := none
  id : Option String := none
  status : TaskStatus := .defined
  created : Option Nat := none
  started : Nat := 0
  completed : Nat := 0
  threads : List ThreadM := []
  prompts : List String := []
  assignedTo : Option String := none
  assignedType : Option String := none
  reviews : List Review := []
  reviewRequirements : List ReviewRequirement := []
  error : Option String := none
  output : Option String := none
  parameters : List (String × Json) := []
  remote : Option String := none
  version : Option String := none
  parentId : Option String := none
  labels : List (String × String) := []
  tags : List String := []
  episode : Option EpisodeM := none
  authToken : Option String := none

/-- Python truthiness of an optional string (`if not x:` on `None` or `""`). -/
def truthyStr : Option String → Bool
  | some s => s ≠ ""
  | none => false

/-- `Task.ensure_thread(name)` for a local task (task.py lines 1032-1055 with
`create_thread`, lines 1002-1030): return when a thread of that name exists;
otherwise append a fresh thread and save again. -/
def Task.ensureThread (t : Task) (name : String) (freshThreadId freshEpisodeId : String) : Task :=
  if t.threads.any (fun th => th.name = name) then t
  else ({ t with threads := t.threads ++ [ThreadM.mk freshThreadId name] }).save freshEpisodeId

/-- `Task.__init__` (task.py lines 76-146): store the arguments (fresh id and
current time supplied explicitly), derive the initial version hash when no
`version` argument is given — at that point the object has no `_version`
attribute, so the hashed projection's `version` field is `None` — require a
description or a remote endpoint (`ValueError` otherwise, modelled as
`Except.error`), then `save()` and `ensure_thread("feed")`.  The final
`update_pending_reviews()` call touches only the pending table (see
`Task.updatePendingReviews`), not the task object. -/
def Task.init (a : TaskInitArgs) (freshId : String) (now : Nat)
    (freshEpisodeId freshThreadId freshEpisodeId2 : String) : Except String Task :=
  let t0 : Task :=
    { id := a.id.getD freshId
      description := a.description
      maxSteps := a.maxSteps
      ownerId := a.ownerId
      project := a.project
      device := a.device
      deviceType := a.deviceType
      status := a.status
      created := a.created.getD now
      started := a.started
      completed := a.completed
      assignedTo := a.assignedTo
      assignedType := a.assignedType
      error := a.error
      output := a.output
      parameters := a.parameters
      reviews := a.reviews
      reviewRequirements := a.reviewRequirements
      remote := a.remote
      prompts := a.prompts
      parentId := a.parentId
      labels := a.labels
      tags := a.tags
      episode := a.episode
      expectSchema := a.expectSchema
      authToken := a.authToken
      version := none
      threads := a.threads }
  let t1 := { t0 with version := some (a.version.getD t0.generateVersionHash) }
  if ¬ truthyStr a.remote ∧ ¬ truthyStr a.description then
    .error "Task must have a description or a remote task"
  else
    .ok ((t1.save freshEpisodeId).ensureThread "feed" freshThreadId freshEpisodeId2)

/-! ## Principals and owner resolution (routes in
`src/taskara/server/router/tasks.py`) -/

/-- A verified principal: email plus the organisation-to-role mapping of
`current_user.organizations`.  The empty list models both a missing and an
empty mapping (both are falsy in the routes' conditional expressions). -/
structure Principal where
  email : String
  organizations : List (String × String)
  deriving DecidableEq, Repr

/-- The role set the read routes accept. -/
def readRoles : List String := ["org:admin", "org:member", "org:agent", "org:viewer"]

/-- The role set the mutation routes accept. -/
def mutateRoles : List String := ["org:admin", "org:member", "org:agent"]

/-- The owners list the routes build:
`[current_user.email] + [org for role-matching orgs] if
current_user.organizations else []` — the Python conditional expression has
lowest precedence, so a principal with no organisations gets the empty
owners list (not even the email). -/
def routeOwners (user : Principal) (roles : List String) : List String :=
  if user.organizations ≠ [] then
    user.email :: (user.organizations.filter (fun kv => roles.contains kv.2)).map Prod.fst
  else []

/-- Modelled from the spec: `Task.find(id=..., owners=[...])`.  The routes and
the repository's tests call `Task.find` with an `owners` keyword (and
`Task.find_many_lite`), but the snapshot of `src/taskara/task.py` predates
both — its `find` has no `owners` handling and `find_many_lite` is absent.
§4.3/§4.4 fix the semantics: the stored tasks matching the filters whose
`owner_id` is one of `owners`.  (Ordering, `created` descending in the store,
does not matter to any claim; the embedding keeps store order.) -/
def findByIdOwners (db : List Task) (taskId : String) (owners : List String) : List Task :=
  db.filter (fun t => t.id = taskId &&
    match t.ownerId with
    | some o => owners.contains o
    | none => false)

/-- An HTTP error outcome (`HTTPException(status_code, detail)`). -/
structure HttpError where
  status : Nat
  detail : String
  deriving DecidableEq, Repr

/-- `GET /v1/tasks/{task_id}` (`get_task`, router lines 227-243): build the
read-role owners list, look the task up by id under it, and answer 404 when
nothing matches — the route has no other failure outcome. -/
def getTaskRoute (db : List Task) (user : Principal) (taskId : String) :
    Except HttpError Task :=
  match findByIdOwners db taskId (routeOwners user readRoles) with
  | [] => .error ⟨404, "Task not found"⟩
  | t :: _ => .ok t

/-! ## Task update (`update_task`, router lines 265-305) -/

/-- The `V1TaskUpdate` body, from `src/taskara/server/models.py`.
Modelled from the spec for one field: the route reads `data.assigned_type`,
which is absent from the `V1TaskUpdate` class in the snapshot (the file
predates the route); the spec's §4.4 update contract and the route's
`is not None` guard fix it as an optional field defaulting to absent. -/
structure V1TaskUpdate where
  status : Option String := none
  description : Option String := none
  maxSteps : Option Nat := none
  error : Option String := none
  output : Option String := none
  assignedTo : Option String := none
  assignedType : Option String := none
  completed : Option Nat := none
  version : Option String := none
  setLabels : Option (List (String × String)) := none

/-- Key-level upsert into an association-list mapping
(`task.labels[key] = value`). -/
def upsertLabel (ls : List (String × String)) (k v : String) : List (String × String) :=
  if ls.any (fun p => p.1 = k) then
    ls.map (fun p => if p.1 = k then (k, v) else p)
  else ls ++ [(k, v)]

/-- Look a key up in a label association list. -/
def lookupLabel (ls : List (String × String)) (k : String) : Option String :=
  (ls.find? (fun p => p.1 = k)).map (fun p => p.2)

/-- The field mutations of `update_task` (router lines 284-300): each
`if data.x:` (Python truthiness) or `if data.x is not None:` guard from the
source, then the `set_labels` upsert loop.  The source's statements are
sequential but independent — each reads only its own patch field and writes
only its own task field (the labels loop reads the labels no earlier
statement writes) — so they are rendered as one simultaneous record update.
An unknown status string raises (`TaskStatus(data.status)`) and aborts the
request before anything is saved; the embedding covers the route's effect on
the task it saves, so that arm keeps the status (no claim passes one). -/
def updateTaskFields (t : Task) (d : V1TaskUpdate) : Task :=
  { t with
    description := if truthyStr d.description then d.description else t.description
    status :=
      match d.status with
      | some sv =>
          if sv ≠ "" then
            match TaskStatus.ofString sv with
            | some st => st
            | none => t.status
          else t.status
      | none => t.status
    assignedTo :=
      match d.assignedTo with
      | some v => some v
      | none => t.assignedTo
    assignedType :=
      match d.assignedType with
      | some v => some v
      | none => t.assignedType
    error := if truthyStr d.error then d.error else t.error
    output := if truthyStr d.output then d.output else t.output
    completed :=
      match d.completed with
      | some c => if c ≠ 0 then c else t.completed
      | none => t.completed
    labels :=
      match d.setLabels with
      | some m =>
          if m ≠ [] then m.foldl (fun ls kv => upsertLabel ls kv.1 kv.2) t.labels
          else t.labels
      | none => t.labels }

/-- `PUT /v1/tasks/{task_id}` (`update_task`, router lines 265-305): find
under the mutation roles (404 otherwise), apply the patch fields, save. -/
def updateTaskRoute (db : List Task) (user : Principal) (taskId : String)
    (d : V1TaskUpdate) (freshEpisodeId : String) : Except HttpError Task :=
  match findByIdOwners db taskId (routeOwners user mutateRoles) with
  | [] => .error ⟨404, "Task not found or you do not have proper org access to make this change"⟩
  | t :: _ => .ok ((updateTaskFields t d).save freshEpisodeId)

/-! ## Task creation (`create_task`, router lines 53-125) -/

/-- A review requirement of the request body (`V1ReviewRequirement` without
ids, as `create_task` reads it). -/
structure V1ReviewReqBody where
  numberRequired : Nat := 2
  users : List String := []
  agents : List String := []
  groups : List String := []

/-- Modelled from the spec: `V1CreateTask`, imported by the router from
`taskara.server.models` but absent from the snapshot of that file.  Its
fields are the ones `create_task` reads, optional fields defaulting to
absent exactly as in the sibling `V1Task` model (in particular
`status: Optional[str] = None`, so a request without a status arrives as
`None`). -/
structure V1CreateTask where
  id : Option String := none
  description : Option String := none
  maxSteps : Nat := 30
  device : Option V1Device := none
  deviceType : Option Json := none
  status : Option String := none
  org : Option String := none
  episodeId : Option String := none
  assignedTo : Option String := none
  assignedType : Option String := none
  parameters : List (String × Json) := []
  labels : List (String × String) := []
  tags : List String := []
  reviewRequirements : List V1ReviewReqBody := []

/-- The owner resolution of `create_task` (router lines 60-77): the
principal's email, or the requested organisation when the principal's role
there allows creation (403 otherwise; a missing organisations mapping or a
missing entry raises, answered 500). -/
def createTaskOwner (user : Principal) (orgRequested : Option String) :
    Except HttpError String :=
  match orgRequested with
  | none => .ok user.email
  | some org =>
      if user.organizations ≠ [] then
        match user.organizations.find? (fun kv => kv.1 = org) with
        | some kv =>
            if mutateRoles.contains kv.2 then .ok org
            else .error ⟨403, "You are not authorized to create tasks for this organization"⟩
        | none => .error ⟨500, "KeyError"⟩
      else .error ⟨500, "You do not have any organizations or there is an error"⟩

/-- The episode resolution of `create_task` (router lines 79-88): look a
requested episode id up (404 when absent), else a fresh empty episode. -/
def createTaskEpisode (episodes : List EpisodeM) (episodeId : Option String)
    (freshId : String) : Except HttpError EpisodeM :=
  match episodeId with
  | some eid =>
      match episodes.find? (fun ep => ep.id = eid) with
      | some ep => .ok ep
      | none => .error ⟨404, "Episode not found"⟩
  | none => .ok ⟨freshId, []⟩

/-- `POST /v1/tasks` (`create_task`, router lines 53-125): resolve the owner
and the episode, default a missing id, synthesise `ReviewRequirement`s
(fresh ids from the supply), default a missing or empty status to
`"created"` (`status = data.status or "created"`), and construct the `Task`
with `status=TaskStatus(status)`. -/
def createTaskRoute (episodes : List EpisodeM) (user : Principal)
    (data : V1CreateTask) (uuid : Nat → String) (now : Nat) :
    Except HttpError Task :=
  match createTaskOwner user data.org with
  | .error e => .error e
  | .ok ownerId =>
    match createTaskEpisode episodes data.episodeId (uuid 0) with
    | .error e => .error e
    | .ok episode =>
      let taskId := data.id.getD (uuid 1)
      let reviewReqs := (data.reviewRequirements.zip
          (List.range data.reviewRequirements.length)).map (fun ri =>
        ReviewRequirement.mk (uuid (2 + ri.2)) taskId ri.1.numberRequired
          ri.1.users ri.1.agents ri.1.groups)
      let status :=
        match data.status with
        | some sv => if sv ≠ "" then sv else "created"
        | none => "created"
      match TaskStatus.ofString status with
      | none => .error ⟨500, "invalid status"⟩
      | some taskStatus =>
        let n := 2 + data.reviewRequirements.length
        match Task.init
            { id := some taskId
              maxSteps := data.maxSteps
              device := data.device
              deviceType := data.deviceType
              ownerId := some ownerId
              description := data.description
              status := taskStatus
              parameters := data.parameters
              assignedTo := data.assignedTo
              assignedType := data.assignedType
              reviewRequirements := reviewReqs
              labels := data.labels
              tags := data.tags
              episode := some episode }
            (uuid n) now (uuid (n + 1)) (uuid (n + 2)) (uuid (n + 3)) with
        | .error msg => .error ⟨500, msg⟩
        | .ok t => .ok t

/-! ## Benchmarks and evals (`src/taskara/benchmark.py`) -/

/-- A task template, from `TaskTemplate.__init__` in
`src/taskara/benchmark.py` (lines 25-47). -/
structure TaskTemplate where
  id : String
  description : Option String := none
  maxSteps : Nat := 30
  ownerId : Option String := none
  device : Option V1Device := none
  deviceType : Option Json := none
  expectSchema : Option Json := none
  parameters : List (String × Json) := []
  labels : List (String × String) := []
  tags : List String := []

/-- `TaskTemplate.to_task` (benchmark.py lines 93-113): construct a fresh
`Task` from the template's parametric fields (note: the template's
`parameters` are not passed), the given assignment and remote, and the
template's owner when the `owner_id` argument is falsy; then copy the
expect schema onto the new task. -/
def TaskTemplate.toTask (tpl : TaskTemplate)
    (assignedTo assignedType remote ownerId : Option String)
    (freshId : String) (now : Nat) (epId thId epId2 : String) :
    Except String Task :=
  (Task.init
      { description := tpl.description
        maxSteps := tpl.maxSteps
        device := tpl.device
        deviceType := tpl.deviceType
        assignedTo := assignedTo
        assignedType := assignedType
        remote := remote
        labels := tpl.labels
        tags := tpl.tags
        ownerId := if truthyStr ownerId then ownerId else tpl.ownerId }
      freshId now epId thId epId2).map
    (fun t => { t with expectSchema := tpl.expectSchema })

/-- An agent benchmark, from `Benchmark.__init__` in
`src/taskara/benchmark.py` (lines 238-259); on construction every template
receives the label `benchmark = name`. -/
structure Benchmark where
  id : String
  name : String
  description : String
  tasks : List TaskTemplate
  ownerId : Option String := none
  labels : List (String × String) := []
  tags : List String := []
  isPublic : Bool := false

/-- `Benchmark.__init__`s labelling loop:
`task.labels["benchmark"] = self.name` for every template. -/
def Benchmark.mkLabelled (id name description : String)
    (tpls : List TaskTemplate) (ownerId : Option String) : Benchmark :=
  { id := id, name := name, description := description,
    tasks := tpls.map (fun tpl =>
      { tpl with labels := upsertLabel tpl.labels "benchmark" name }),
    ownerId := ownerId }

/-- An eval, from `Eval.__init__` in `src/taskara/benchmark.py`
(lines 443-466). -/
structure EvalM where
  id : String
  benchmark : Benchmark
  tasks : List Task
  ownerId : Option String
  assignedTo : Option String
  assignedType : Option String

/-- The body of `Eval.__init__`'s loop for one template: materialise a task
via `to_task` and stamp `task.labels["benchmark"] = benchmark.name`. -/
def evalTaskOfTemplate (b : Benchmark)
    (assignedTo assignedType remote ownerId : Option String)
    (uuid : Nat → String) (i : Nat) (tpl : TaskTemplate) :
    Except String Task :=
  (tpl.toTask assignedTo assignedType remote ownerId
      (uuid (5 * i + 1)) 0 (uuid (5 * i + 2)) (uuid (5 * i + 3)) (uuid (5 * i + 4))).map
    (fun t => { t with labels := upsertLabel t.labels "benchmark" b.name })

/-- The `for tpl in self._benchmark.tasks` loop of `Eval.__init__`: one task
per template, in order, the loop index feeding the id supply. -/
def evalTasksLoop (b : Benchmark)
    (assignedTo assignedType remote ownerId : Option String)
    (uuid : Nat → String) : Nat → List TaskTemplate → Except String (List Task)
  | _, [] => .ok []
  | i, tpl :: rest =>
      match evalTaskOfTemplate b assignedTo assignedType remote ownerId uuid i tpl with
      | .error e => .error e
      | .ok t =>
          match evalTasksLoop b assignedTo assignedType remote ownerId uuid (i + 1) rest with
          | .error e => .error e
          | .ok ts => .ok (t :: ts)

/-- `Eval.__init__` (benchmark.py lines 443-466, entered through
`Benchmark.eval`, lines 293-306): a fresh id, then one task per template of
the benchmark, each built by `to_task(assigned_to, assigned_type, remote,
owner_id)` and labelled `benchmark = benchmark.name`.  Fresh ids come from
the supply; the construction time is irrelevant to the fields the claims
inspect and fixed at zero. -/
def Eval.init (b : Benchmark) (assignedTo assignedType remote ownerId : Option String)
    (uuid : Nat → String) : Except String EvalM :=
  match evalTasksLoop b assignedTo assignedType remote ownerId uuid 0 b.tasks with
  | .error e => .error e
  | .ok tasks =>
      .ok { id := uuid 0, benchmark := b, tasks := tasks, ownerId := ownerId,
            assignedTo := assignedTo, assignedType := assignedType }

/-! ## The credential vault (`Task.encrypt_device` / `Task.decrypt_device`,
task.py lines 148-201)

`encrypt_device` is `base64.b64encode(fernet.encrypt(device.model_dump_json()
.encode())).decode()`; `decrypt_device` is
`V1Device.model_validate_json(fernet.decrypt(base64.b64decode(s)).decode())`;
both short-circuit falsy inputs to `None`.  Python's `base64` module is
implemented concretely (RFC 4648, standard alphabet); the Fernet cipher and
the pydantic codec are external collaborators, embedded by executable models
that satisfy the contracts the vault relies on (same-key decrypt∘encrypt
identity; validate∘dump identity). -/

/-- The standard base64 alphabet. -/
def base64Alphabet : List Char :=
  "ABCDEFGHIJKLMNOPQRSTUVWXYZabcdefghijklmnopqrstuvwxyz0123456789+/".data

/-- The character of a six-bit group. -/
def b64c (n : Nat) : Char := base64Alphabet.getD n 'A'

/-- The six-bit group of an alphabet character. -/
def b64idx (c : Char) : Nat := base64Alphabet.indexOf c

/-- `base64.b64encode`: three bytes into four characters, with `=` padding
for a trailing one- or two-byte group. -/
def b64encodeBytes : List Nat → List Char
  | a :: b :: c :: rest =>
      b64c (a / 4) :: b64c (a % 4 * 16 + b / 16) :: b64c (b % 16 * 4 + c / 64) ::
        b64c (c % 64) :: b64encodeBytes rest
  | [a, b] => [b64c (a / 4), b64c (a % 4 * 16 + b / 16), b64c (b % 16 * 4), '=']
  | [a] => [b64c (a / 4), b64c (a % 4 * 16), '=', '=']
  | [] => []

/-- `base64.b64decode` on well-padded input: four characters into three
bytes, the padding cases closing the stream. -/
def b64decodeChars : List Char → List Nat
  | a :: b :: c :: d :: rest =>
      if c = '=' then [b64idx a * 4 + b64idx b / 16]
      else if d = '=' then
        [b64idx a * 4 + b64idx b / 16, b64idx b % 16 * 16 + b64idx c / 4]
      else
        (b64idx a * 4 + b64idx b / 16) :: (b64idx b % 16 * 16 + b64idx c / 4) ::
          (b64idx c % 4 * 64 + b64idx d) :: b64decodeChars rest
  | _ => []

/-- Modelled from the spec: the process-wide 32-byte symmetric key of §4.2
(`Task.get_encryption_key`, read once from the environment or the key file;
its acquisition is filesystem I/O outside the embedding, its value opaque). -/
def encryptionKey : List Nat :=
  [137, 42, 7, 201, 64, 19, 250, 3, 88, 116, 5, 93, 174, 240, 61, 12,
   99, 145, 28, 77, 183, 54, 220, 9, 131, 70, 2, 158, 46, 205, 17, 86]

/-- Modelled from the spec: the external Fernet cipher (§4.2 Credential
Vault), as a byte-additive stream cipher keyed by the repeated key — an
executable stand-in satisfying the one contract the vault relies on,
`decrypt(key, encrypt(key, m)) = m` under the process key. -/
def fernetXor (key : List Nat) : Nat → List Nat → List Nat
  | _, [] => []
  | i, x :: xs => (x ^^^ key.getD (i % key.length) 0) :: fernetXor key (i + 1) xs

/-- `Fernet(key).encrypt` of the model. -/
def fernetEncrypt (key msg : List Nat) : List Nat := fernetXor key 0 msg

/-- `Fernet(key).decrypt` of the model. -/
def fernetDecrypt (key ct : List Nat) : List Nat := fernetXor key 0 ct

/-- The serialized bytes of `device.model_dump_json().encode()` — pydantic
v2 renders compactly, `{"descriptor":"..."}` (descriptors that would need
JSON escaping sit outside the embedding; the round-trip theorem assumes a
clean ASCII payload). -/
def deviceJsonBytes (d : V1Device) : List Nat :=
  strBytes "\x7b\"descriptor\":\"" ++ strBytes d.descriptor ++ strBytes "\"\x7d"

/-- `V1Device.model_validate_json` of the model: accept exactly the shape
`deviceJsonBytes` produces — the 15-byte header, the payload, the 2-byte
footer — and recover the descriptor; anything else is a validation error
(`none`). -/
def deviceValidateJson (bs : List Nat) : Option V1Device :=
  if bs.length < 17 then none
  else if bs.take 15 ≠ strBytes "\x7b\"descriptor\":\"" then none
  else if bs.drop (bs.length - 2) ≠ strBytes "\"\x7d" then none
  else if ((bs.drop 15).take (bs.length - 17)).all
      (fun x => x < 128 ∧ x ≠ 34 ∧ x ≠ 92) then
    some ⟨String.mk ((((bs.drop 15).take (bs.length - 17))).map Char.ofNat)⟩
  else none

/-- `Task.encrypt_device` (task.py lines 184-190): `None` for a falsy device,
else the base64 text of the Fernet ciphertext of the device's JSON. -/
def Task.encryptDevice : Option V1Device → Option String
  | none => none
  | some d =>
      some (String.mk (b64encodeBytes (fernetEncrypt encryptionKey (deviceJsonBytes d))))

/-- `Task.decrypt_device` (task.py lines 192-201): `None` for a falsy input
(`None` or `""`), else validate the Fernet plaintext of the base64-decoded
bytes (a validation failure, which raises in Python, is `none`). -/
def Task.decryptDevice : Option String → Option V1Device
  | none => none
  | some s =>
      if s = "" then none
      else deviceValidateJson (fernetDecrypt encryptionKey (b64decodeChars s.data))

/-- The concrete source task of the C4 counterexample/witness: its episode
holds one recorded action event. -/
def copySrcTask : Task :=
  { id := "t1", description := some "d", maxSteps := 30, ownerId := none,
    project := none, device := none, deviceType := none, status := .inProgress,
    created := 3, started := 4, completed := 6, assignedTo := none,
    assignedType := none, error := none, output := none, parameters := [],
    reviews := [], reviewRequirements := [], remote := none, prompts := [],
    parentId := none, labels := [("l", "v")], tags := ["g"],
    episode := some ⟨"e1", [Act.mk "a1" "click" []]⟩, expectSchema := none,
    authToken := none, version := some "v0", threads := [] }

/-- The concrete task of the C2 counterexample. -/
def saveSrcTask : Task :=
  { id := "t1", description := some "d", maxSteps := 30, ownerId := none,
    project := none, device := none, deviceType := none, status := .defined,
    created := 0, started := 0, completed := 0, assignedTo := none,
    assignedType := none, error := none, output := none, parameters := [],
    reviews := [], reviewRequirements := [], remote := none, prompts := [],
    parentId := none, labels := [], tags := [], episode := some ⟨"e1", []⟩,
    expectSchema := none, authToken := none, version := some "v0", threads := [] }

/-! ## Pending-table key counting (scaffolding for the §4.6 fixed point) -/

/-- Number of rows of the pending table matching the
`(task_id, user, requirement_id)` filter the recompute queries by. -/
def keyCount (tbl : List PendingRow) (t u rid : String) : Nat :=
  tbl.countP (fun row => pendingMatches row t u rid)

/-- At most one pending row per `(task_id, user_id, requirement_id)` key —
the state `ensure_pending_reviewer` maintains, since it only inserts when
`.first()` finds no matching row. -/
def uniqKeys (tbl : List PendingRow) : Prop :=
  ∀ a b c, keyCount tbl a b c ≤ 1

/-- A one-user requirement (1 of `u1`) for exercising the ensure branch of
the recompute. -/
def pendingWitReq : ReviewRequirement := ⟨"r1", "t1", 1, ["u1"], [], []⟩

/-- A task holding `pendingWitReq` with an empty episode and no reviews:
nobody satisfies, so the count (0) is below the threshold (1). -/
def pendingWitTask : Task :=
  { id := "t1", description := some "d", maxSteps := 30, ownerId := none,
    project := none, device := none, deviceType := none, status := .defined,
    created := 0, started := 0, completed := 0, assignedTo := none,
    assignedType := none, error := none, output := none, parameters := [],
    reviews := [], reviewRequirements := [pendingWitReq], remote := none,
    prompts := [], parentId := none, labels := [], tags := [],
    episode := some ⟨"e1", []⟩, expectSchema := none, authToken := none,
    version := none, threads := [] }

/-- A requirement needing 2 of the agents `a1`, `a2`. -/
def pendingCexReq : ReviewRequirement := ⟨"r1", "t1", 2, [], ["a1", "a2"], []⟩

/-- A task holding `pendingCexReq` with an empty episode and a task-level
review by `a1`: `a1` individually satisfies the requirement (the per-action
clause is vacuous, the task-review clause holds) while the satisfying count
(1) stays below the threshold (2). -/
def pendingCexTask : Task :=
  { id := "t1", description := some "d", maxSteps := 30, ownerId := none,
    project := none, device := none, deviceType := none, status := .defined,
    created := 0, started := 0, completed := 0, assignedTo := none,
    assignedType := none, error := none, output := none, parameters := [],
    reviews := [⟨"a1", true⟩], reviewRequirements := [pendingCexReq],
    remote := none, prompts := [], parentId := none, labels := [], tags := [],
    episode := some ⟨"e1", []⟩, expectSchema := none, authToken := none,
    version := none, threads := [] }

/-- A requirement needing 1 of the users `u1`, `u2`. -/
def clearWitReq : ReviewRequirement := ⟨"r1", "t1", 1, ["u1", "u2"], [], []⟩

/-- A task holding `clearWitReq` with an empty episode and a task-level
review by `u1`: the count (1) reaches the threshold, so the recompute clears
the requirement's pending rows. -/
def clearWitTask : Task :=
  { id := "t1", description := some "d", maxSteps := 30, ownerId := none,
    project := none, device := none, deviceType := none, status := .defined,
    created := 0, started := 0, completed := 0, assignedTo := none,
    assignedType := none, error := none, output := none, parameters := [],
    reviews := [⟨"u1", true⟩], reviewRequirements := [clearWitReq],
    remote := none, prompts := [], parentId := none, labels := [], tags := [],
    episode := some ⟨"e1", []⟩, expectSchema := none, authToken := none,
    version := none, threads := [] }

/-- A pending table holding `u2`'s row for `clearWitReq` (the state after
`u1` reviewed and their row was already cleared). -/
def clearWitTbl : List PendingRow := [⟨"t1", some "u2", none, some "r1"⟩]

/-! ## Helper lemmas -/

/-- Filtering away the id of the last element deletes exactly that element,
when the ids are distinct. -/
theorem filter_id_ne_getLast (l : List Act) (h : l ≠ [])
    (hnd : (l.map Act.id).Nodup) :
    l.filter (fun a => a.id ≠ (l.getLast h).id) = l.dropLast := by
  have hsplit : l.dropLast ++ [l.getLast h] = l := List.dropLast_append_getLast h
  set x := l.getLast h with hx
  have hnd2 : ((l.dropLast ++ [x]).map Act.id).Nodup := by rw [hsplit]; exact hnd
  rw [List.map_append] at hnd2
  have hdisj := List.disjoint_of_nodup_append hnd2
  have hmem : ∀ a ∈ l.dropLast, a.id ≠ x.id := by
    intro a ha hcontra
    exact hdisj (List.mem_map_of_mem Act.id ha) (by simp [hcontra])
  conv_lhs => rw [← hsplit]
  rw [List.filter_append]
  have h1 : l.dropLast.filter (fun a => a.id ≠ x.id) = l.dropLast :=
    List.filter_eq_self.mpr (fun a ha => by simpa using hmem a ha)
  have h2 : [x].filter (fun a => a.id ≠ x.id) = [] := by simp
  rw [h1, h2, List.append_nil]

/-- C3.  The claim's operational content holds: recording onto an episode
whose last event is named `end` is a no-op; recording an `end` right after a
`mouse_move` deletes that last event (by id — hence the distinct-ids
hypothesis, which the store's primary key provides) and appends the `end`;
in every other case the event is appended.  The claim's further assertion
that the result then ends `[..., previous-non-mouse_move event, end]` is the
corrected part: only the one trailing `mouse_move` is deleted, so a
`mouse_move` immediately before it remains (see the counterexample). -/
theorem record_action_append_rules (e : EpisodeM) (v : Act)
    (hnd : (e.actions.map Act.id).Nodup) :
    (e.actions.getLast?.map Act.name = some "end" →
        recordActionRoute e v = e) ∧
    (e.actions.getLast?.map Act.name ≠ some "end" →
      ((v.name = "end" ∧ e.actions.getLast?.map Act.name = some "mouse_move") →
        (recordActionRoute e v).actions = e.actions.dropLast ++ [v]) ∧
      (¬ (v.name = "end" ∧ e.actions.getLast?.map Act.name = some "mouse_move") →
        (recordActionRoute e v).actions = e.actions ++ [v]))
    := by
  rcases hlast : e.actions.getLast? with _ | la
  · have hnil : e.actions = [] := List.getLast?_eq_none_iff.mp hlast
    refine ⟨by simp, fun _ => ⟨by simp, fun _ => ?_⟩⟩
    simp [recordActionRoute, hlast, EpisodeM.recordEvent, hnil]
  · have hne : e.actions ≠ [] := by
      intro hc; rw [hc] at hlast; simp at hlast
    have hla : la = e.actions.getLast hne := by
      have := List.getLast?_eq_getLast e.actions hne
      rw [hlast] at this; exact (Option.some_inj.mp this)
    constructor
    · intro hend
      have hen : la.name = "end" := by simpa [hlast] using hend
      simp only [recordActionRoute, hlast]
      rw [if_pos hen]
    · intro hnotend
      have hlaname : la.name ≠ "end" := by
        intro hc; exact hnotend (by simp [hlast, hc])
      constructor
      · rintro ⟨hv, hmm⟩
        have hmmn : la.name = "mouse_move" := by simpa [hlast] using hmm
        simp only [recordActionRoute, hlast]
        rw [if_neg hlaname, if_pos (show v.name = "end" ∧ la.name = "mouse_move" from ⟨hv, hmmn⟩)]
        simp only [EpisodeM.recordEvent, EpisodeM.deleteAction]
        rw [hla, filter_id_ne_getLast e.actions hne hnd]
      · intro hnot
        have hcond : ¬ (v.name = "end" ∧ la.name = "mouse_move") := by
          intro hpair; exact hnot ⟨hpair.1, by simp [hlast, hpair.2]⟩
        simp only [recordActionRoute, hlast]
        rw [if_neg hlaname, if_neg hcond]
        simp [EpisodeM.recordEvent]

/-- C3 witness: a concrete run of each of the three rules — a no-op after
`end`; the `mouse_move` deletion; a plain append. -/
theorem record_action_append_rules_witness :
    (([(Act.mk "a1" "click" [])].map Act.id).Nodup ∧
      (recordActionRoute ⟨"e", [Act.mk "a1" "click" []]⟩ (Act.mk "a2" "end" [])).actions =
        [Act.mk "a1" "click" []] ++ [Act.mk "a2" "end" []]) ∧
    (([(Act.mk "a1" "click" []), (Act.mk "a2" "mouse_move" [])].map Act.id).Nodup ∧
      (recordActionRoute ⟨"e", [Act.mk "a1" "click" [], Act.mk "a2" "mouse_move" []]⟩
          (Act.mk "a3" "end" [])).actions =
        [Act.mk "a1" "click" [], Act.mk "a2" "mouse_move" []].dropLast ++ [Act.mk "a3" "end" []]) := by
  constructor
  · refine ⟨by decide, ?_⟩
    exact ((record_action_append_rules ⟨"e", [Act.mk "a1" "click" []]⟩
      (Act.mk "a2" "end" []) (by decide)).2 (by decide)).2 (by decide)
  · refine ⟨by decide, ?_⟩
    exact ((record_action_append_rules ⟨"e", [Act.mk "a1" "click" [], Act.mk "a2" "mouse_move" []]⟩
      (Act.mk "a3" "end" []) (by decide)).2 (by decide)).1 (by decide)

/-- C3 counterexample: with two trailing `mouse_move`s, recording `end`
deletes only the last one — the result is `[mouse_move, end]`, whose
next-to-last event is still a `mouse_move`, not the
"previous-non-mouse_move event" the claim describes. -/
theorem record_action_double_mouse_move_cex :
    (recordActionRoute ⟨"e", [Act.mk "a1" "mouse_move" [], Act.mk "a2" "mouse_move" []]⟩
        (Act.mk "a3" "end" [])).actions.map Act.name = ["mouse_move", "end"] := by decide

/-- `find?` by key over the upsert's map branch: other keys unchanged. -/
theorem find_map_upsert_other (ls : List (String × String)) (k v k2 : String)
    (h : k2 ≠ k) :
    (ls.map (fun p => if p.1 = k then (k, v) else p)).find? (fun p => p.1 = k2) =
      ls.find? (fun p => p.1 = k2) := by
  induction ls with
  | nil => rfl
  | cons q qs ih =>
      simp only [List.map_cons, List.find?_cons]
      by_cases hq : q.1 = k
      · rw [if_pos hq]
        have h1 : decide ((k, v).1 = k2) = false := decide_eq_false (fun hc => h hc.symm)
        have h2 : decide (q.1 = k2) = false :=
          decide_eq_false (by rw [hq]; exact fun hc => h hc.symm)
        rw [h1, h2]
        exact ih
      · rw [if_neg hq]
        cases hq2 : decide (q.1 = k2)
        · exact ih
        · rfl

/-- `find?` by key over the upsert's map branch: the upserted key maps to the
new value whenever the key occurs. -/
theorem find_map_upsert_self (ls : List (String × String)) (k v : String)
    (hany : ls.any (fun p => p.1 = k) = true) :
    (ls.map (fun p => if p.1 = k then (k, v) else p)).find? (fun p => p.1 = k) =
      some (k, v) := by
  induction ls with
  | nil => cases hany
  | cons q qs ih =>
      simp only [List.map_cons, List.find?_cons]
      by_cases hq : q.1 = k
      · rw [if_pos hq, show decide ((k, v).1 = k) = true from by simp]
      · rw [if_neg hq, show decide (q.1 = k) = false from decide_eq_false hq]
        have hany2 : qs.any (fun p => p.1 = k) = true := by
          rcases List.any_eq_true.mp hany with ⟨p, hp, he⟩
          cases hp with
          | head => exact absurd (by simpa using he) hq
          | tail _ hmem => exact List.any_eq_true.mpr ⟨p, hmem, he⟩
        exact ih hany2

/-- Upserting a key makes lookup return its value. -/
theorem lookupLabel_upsert_self (ls : List (String × String)) (k v : String) :
    lookupLabel (upsertLabel ls k v) k = some v := by
  unfold upsertLabel lookupLabel
  by_cases hany : ls.any (fun p => p.1 = k) = true
  · rw [if_pos hany, find_map_upsert_self ls k v hany]; rfl
  · rw [if_neg hany, List.find?_append]
    have hnone : ls.find? (fun p => p.1 = k) = none := by
      rw [List.find?_eq_none]
      intro p hp hc
      exact hany (List.any_eq_true.mpr ⟨p, hp, hc⟩)
    rw [hnone]
    simp

/-- Upserting one key leaves lookups of other keys unchanged. -/
theorem lookupLabel_upsert_other (ls : List (String × String)) (k v k2 : String)
    (h : k2 ≠ k) : lookupLabel (upsertLabel ls k v) k2 = lookupLabel ls k2 := by
  unfold upsertLabel lookupLabel
  by_cases hany : ls.any (fun p => p.1 = k) = true
  · rw [if_pos hany, find_map_upsert_other ls k v k2 h]
  · rw [if_neg hany, List.find?_append]
    rcases hfind : ls.find? (fun p => p.1 = k2) with _ | p
    · simp [show ¬ ((k, v).1 = k2) from fun hc => h hc.symm]
    · simp [hfind]

/-- Folding upserts of a patch mapping: looked-up values come from the patch
when the key is there (patch keys distinct), else from the original labels. -/
theorem lookupLabel_fold_upsert (m : List (String × String))
    (hm : (m.map Prod.fst).Nodup) (ls : List (String × String)) (k : String) :
    lookupLabel (m.foldl (fun a kv => upsertLabel a kv.1 kv.2) ls) k =
      match lookupLabel m k with
      | some v => some v
      | none => lookupLabel ls k := by
  induction m generalizing ls with
  | nil => simp [lookupLabel]
  | cons q qs ih =>
      simp only [List.foldl_cons]
      rw [List.map_cons] at hm
      rw [ih (List.Nodup.of_cons hm) (upsertLabel ls q.1 q.2)]
      by_cases hk : k = q.1
      · have hnone : lookupLabel qs k = none := by
          rw [lookupLabel]
          have hfind : qs.find? (fun p => p.1 = k) = none := by
            rw [List.find?_eq_none]
            intro p hp hc
            have hpk : p.1 = k := of_decide_eq_true hc
            have hqmem : q.1 ∈ List.map Prod.fst qs := by
              rw [← hk, ← hpk]; exact List.mem_map_of_mem Prod.fst hp
            exact (List.nodup_cons.mp hm).1 hqmem
          rw [hfind]; rfl
        have hhead : lookupLabel (q :: qs) k = some q.2 := by
          rw [lookupLabel, List.find?_cons_of_pos _ (by simp [hk])]
          rfl
        rw [hnone, hhead]
        show lookupLabel (upsertLabel ls q.1 q.2) k = some q.2
        rw [hk, lookupLabel_upsert_self]
      · rw [lookupLabel_upsert_other ls q.1 q.2 k hk]
        have hstep : lookupLabel (q :: qs) k = lookupLabel qs k := by
          rw [lookupLabel, lookupLabel,
            List.find?_cons_of_neg _ (by simp; exact fun hc => hk hc.symm)]
        rw [hstep]

/-- Saving does not change the patchable fields (only `version`, and the
episode when absent). -/
theorem save_preserves_fields (t : Task) (e : String) :
    (t.save e).description = t.description ∧ (t.save e).status = t.status ∧
    (t.save e).assignedTo = t.assignedTo ∧ (t.save e).assignedType = t.assignedType ∧
    (t.save e).error = t.error ∧ (t.save e).output = t.output ∧
    (t.save e).completed = t.completed ∧ (t.save e).labels = t.labels ∧
    (t.save e).id = t.id ∧ (t.save e).maxSteps = t.maxSteps ∧
    (t.save e).ownerId = t.ownerId ∧ (t.save e).created = t.created ∧
    (t.save e).started = t.started ∧ (t.save e).tags = t.tags ∧
    (t.save e).parameters = t.parameters ∧ (t.save e).reviews = t.reviews ∧
    (t.save e).reviewRequirements = t.reviewRequirements ∧
    (t.save e).prompts = t.prompts ∧ (t.save e).threads = t.threads := by
  unfold Task.save
  rcases t.episode with _ | ep <;> simp

/-- C6.  `update_task` with a `set_labels` patch: after the route (its final
`task.save()` included), the labels map is the old map with every patch key
upserted to the patch value — label keys outside the patch keep their
values — and every patchable field whose patch entry is absent keeps its
value.  The distinct-key hypothesis on the patch mirrors a Python dict's
keys. -/
theorem update_task_set_labels_merge (t : Task) (d : V1TaskUpdate) (e : String)
    (m : List (String × String)) (hm : d.setLabels = some m)
    (hnd : (m.map Prod.fst).Nodup) :
    (∀ k, lookupLabel ((updateTaskFields t d).save e).labels k =
      match lookupLabel m k with
      | some v => some v
      | none => lookupLabel t.labels k) ∧
    (d.description = none → ((updateTaskFields t d).save e).description = t.description) ∧
    (d.status = none → ((updateTaskFields t d).save e).status = t.status) ∧
    (d.assignedTo = none → ((updateTaskFields t d).save e).assignedTo = t.assignedTo) ∧
    (d.assignedType = none → ((updateTaskFields t d).save e).assignedType = t.assignedType) ∧
    (d.error = none → ((updateTaskFields t d).save e).error = t.error) ∧
    (d.output = none → ((updateTaskFields t d).save e).output = t.output) ∧
    (d.completed = none → ((updateTaskFields t d).save e).completed = t.completed) ∧
    ((updateTaskFields t d).save e).id = t.id ∧
    ((updateTaskFields t d).save e).maxSteps = t.maxSteps ∧
    ((updateTaskFields t d).save e).ownerId = t.ownerId ∧
    ((updateTaskFields t d).save e).created = t.created ∧
    ((updateTaskFields t d).save e).started = t.started ∧
    ((updateTaskFields t d).save e).tags = t.tags ∧
    ((updateTaskFields t d).save e).parameters = t.parameters ∧
    ((updateTaskFields t d).save e).reviews = t.reviews ∧
    ((updateTaskFields t d).save e).reviewRequirements = t.reviewRequirements ∧
    ((updateTaskFields t d).save e).prompts = t.prompts := by
  obtain ⟨p1, p2, p3, p4, p5, p6, p7, p8, p9, p10, p11, p12, p13, p14, p15, p16, p17, p18, _⟩ :=
    save_preserves_fields (updateTaskFields t d) e
  rw [p1, p2, p3, p4, p5, p6, p7, p8, p9, p10, p11, p12, p13, p14, p15, p16, p17, p18]
  refine ⟨?_, ?_, ?_, ?_, ?_, ?_, ?_, ?_, rfl, rfl, rfl, rfl, rfl, rfl, rfl, rfl, rfl, rfl⟩
  · intro k
    simp only [updateTaskFields, hm]
    by_cases hnil : m = []
    · subst hnil
      simp [lookupLabel]
    · rw [if_pos hnil, lookupLabel_fold_upsert m hnd t.labels k]
  · intro h; simp [updateTaskFields, h, truthyStr]
  · intro h; simp [updateTaskFields, h]
  · intro h; simp [updateTaskFields, h]
  · intro h; simp [updateTaskFields, h]
  · intro h; simp [updateTaskFields, h, truthyStr]
  · intro h; simp [updateTaskFields, h, truthyStr]
  · intro h; simp [updateTaskFields, h]

/-- C6 witness: the spec's scenario 2 — labels `{test: true}` patched with
`set_labels {test_set: true}` merge to both keys; the untouched fields
stay. -/
theorem update_task_set_labels_merge_witness :
    ((V1TaskUpdate.mk none none none none none none none none none
        (some [("test_set", "true")])).setLabels = some [("test_set", "true")] ∧
      ([("test_set", "true")].map Prod.fst).Nodup) ∧
    (∀ k, lookupLabel ((updateTaskFields
          { id := "t1", description := some "d", maxSteps := 30, ownerId := none,
            project := none, device := none, deviceType := none, status := .defined,
            created := 0, started := 0, completed := 0, assignedTo := none,
            assignedType := none, error := none, output := none, parameters := [],
            reviews := [], reviewRequirements := [], remote := none, prompts := [],
            parentId := none, labels := [("test", "true")], tags := [],
            episode := some ⟨"e1", []⟩, expectSchema := none, authToken := none,
            version := none, threads := [] }
          (V1TaskUpdate.mk none none none none none none none none none
            (some [("test_set", "true")]))).save "e2").labels k =
      match lookupLabel [("test_set", "true")] k with
      | some v => some v
      | none => lookupLabel [("test", "true")] k) := by
  refine ⟨⟨rfl, by decide⟩, ?_⟩
  exact (update_task_set_labels_merge _ _ "e2" [("test_set", "true")] rfl (by decide)).1

/-- `ensure_thread` does not change the status. -/
theorem ensureThread_status (t : Task) (n th e : String) :
    (t.ensureThread n th e).status = t.status := by
  unfold Task.ensureThread
  split
  · rfl
  · exact (save_preserves_fields _ e).2.1

/-- A successfully constructed task carries the status argument. -/
theorem init_status (a : TaskInitArgs) (fid : String) (now : Nat)
    (e1 th e2 : String) (t : Task) (h : Task.init a fid now e1 th e2 = .ok t) :
    t.status = a.status := by
  unfold Task.init at h
  by_cases hc : ¬ truthyStr a.remote ∧ ¬ truthyStr a.description
  · rw [if_pos hc] at h; cases h
  · rw [if_neg hc] at h
    rw [← Except.ok.inj h, ensureThread_status, (save_preserves_fields _ e1).2.1]

/-- C8.  Corrected: a `Task` constructed directly without an explicit status
gets the default `defined`; but `POST /v1/tasks` with no `status` field in
the body creates the task with status `created` — the route reads
`status = data.status or "created"`. -/
theorem task_initial_status :
    (∀ (a : TaskInitArgs) (fid : String) (now : Nat) (e1 th e2 : String) (t : Task),
      a.status = TaskStatus.defined → Task.init a fid now e1 th e2 = .ok t →
      t.status = TaskStatus.defined) ∧
    (∀ (eps : List EpisodeM) (user : Principal) (data : V1CreateTask)
      (uuid : Nat → String) (now : Nat) (t : Task),
      data.status = none → createTaskRoute eps user data uuid now = .ok t →
      t.status = TaskStatus.creat) := by
  constructor
  · intro a fid now e1 th e2 t ha h
    rw [init_status a fid now e1 th e2 t h, ha]
  · intro eps user data uuid now t hds h
    unfold createTaskRoute at h
    rcases ho : createTaskOwner user data.org with e | ownerId <;> rw [ho] at h
    · cases h
    rcases he : createTaskEpisode eps data.episodeId (uuid 0) with e | episode <;>
      rw [he] at h
    · cases h
    rw [hds] at h
    have hof : TaskStatus.ofString "created" = some TaskStatus.creat := by decide
    simp only [hof] at h
    rcases hinit : Task.init
        { description := data.description, maxSteps := data.maxSteps,
          ownerId := some ownerId, device := data.device,
          deviceType := data.deviceType, id := some (data.id.getD (uuid 1)),
          status := TaskStatus.creat, parameters := data.parameters,
          assignedTo := data.assignedTo, assignedType := data.assignedType,
          reviewRequirements := (data.reviewRequirements.zip
            (List.range data.reviewRequirements.length)).map (fun ri =>
              ReviewRequirement.mk (uuid (2 + ri.2)) (data.id.getD (uuid 1))
                ri.1.numberRequired ri.1.users ri.1.agents ri.1.groups),
          labels := data.labels, tags := data.tags, episode := some episode }
        (uuid (2 + data.reviewRequirements.length)) now
        (uuid (2 + data.reviewRequirements.length + 1))
        (uuid (2 + data.reviewRequirements.length + 2))
        (uuid (2 + data.reviewRequirements.length + 3)) with e | t2 <;>
      rw [hinit] at h
    · cases h
    · rw [← Except.ok.inj h]
      exact init_status _ _ _ _ _ _ _ hinit

/-- C8 witness: a direct construction with the defaulted status comes out
`defined`; the route with a status-less body comes out `created`. -/
theorem task_initial_status_witness :
    ((Task.init { description := some "d" } "i" 0 "a" "b" "c").toOption.map
        Task.status = some TaskStatus.defined) ∧
    ((createTaskRoute [] ⟨"tom@myspace.com", []⟩ { description := some "d" }
        (fun n => toString n) 0).toOption.map Task.status = some TaskStatus.creat) := by
  constructor
  · rcases hr : Task.init { description := some "d" } "i" 0 "a" "b" "c" with e | t
    · have hok : (Task.init { description := some "d" } "i" 0 "a" "b" "c").isOk = true := by
        decide
      rw [hr] at hok; cases hok
    · show some t.status = some TaskStatus.defined
      rw [task_initial_status.1 { description := some "d" } "i" 0 "a" "b" "c" t rfl hr]
  · rcases hr : createTaskRoute [] ⟨"tom@myspace.com", []⟩ { description := some "d" }
        (fun n => toString n) 0 with e | t
    · have hok : (createTaskRoute [] ⟨"tom@myspace.com", []⟩ { description := some "d" }
          (fun n => toString n) 0).isOk = true := by decide
      rw [hr] at hok; cases hok
    · show some t.status = some TaskStatus.creat
      rw [task_initial_status.2 [] ⟨"tom@myspace.com", []⟩ { description := some "d" }
        (fun n => toString n) 0 t rfl hr]

/-- C8 counterexample: the claim says a task created via `POST /v1/tasks`
with no status field has status `defined`; the route actually produces
`created`. -/
theorem create_task_route_default_status_cex :
    (createTaskRoute [] ⟨"tom@myspace.com", []⟩
        { description := some "Search for french ducks" }
        (fun n => toString n) 0).toOption.map Task.status =
      some TaskStatus.creat ∧ TaskStatus.creat ≠ TaskStatus.defined := by
  exact ⟨by decide, by decide⟩

/-- C5.  The failing input of the owners-list bug, evaluated: a principal
whose `organizations` mapping is empty (or missing — both falsy) asks for a
task owned by their own email, and `get_task` answers 404.  The route's
`owners = [email] + [...] if current_user.organizations else []` is one
Python conditional expression, so the empty-organisations branch drops the
email as well; §4.1's `resolve_owners` (which always contains the email)
says the task should be returned.  The only error the route can produce is
404, so the no-leak half of the claim holds. -/
theorem get_task_orgless_principal_404 :
    (getTaskRoute
        [{ id := "t1", description := some "d", maxSteps := 30,
           ownerId := some "tom@myspace.com", project := none, device := none,
           deviceType := none, status := .defined, created := 0, started := 0,
           completed := 0, assignedTo := none, assignedType := none,
           error := none, output := none, parameters := [], reviews := [],
           reviewRequirements := [], remote := none, prompts := [],
           parentId := none, labels := [], tags := [],
           episode := some ⟨"e1", []⟩, expectSchema := none, authToken := none,
           version := none, threads := [] }]
        ⟨"tom@myspace.com", []⟩ "t1") = .error ⟨404, "Task not found"⟩ ∧
    routeOwners ⟨"tom@myspace.com", []⟩ readRoles = [] := by
  exact ⟨rfl, rfl⟩


/-- C4.  Corrected: `Task.copy` resets id, timestamps and status, re-derives
the version on the reset copy — but `copy.deepcopy` preserves the episode's
action events, so the copy's episode has the same events as the source's
(a distinct object in Python, never the literal same one, but not a new
empty episode).  The fresh-id hypothesis models `shortuuid.uuid()` never
repeating an existing id; the child collections are equal as values, and
`deepcopy` guarantees they are distinct objects (object identity is outside
a value-level embedding). -/
theorem task_copy_spec (t : Task) (newId : String) (now : Nat)
    (h : newId ≠ t.id) :
    (t.copy newId now).id ≠ t.id ∧
    (t.copy newId now).id = newId ∧
    (t.copy newId now).created = now ∧
    (t.copy newId now).started = 0 ∧
    (t.copy newId now).completed = 0 ∧
    (t.copy newId now).status = TaskStatus.defined ∧
    (t.copy newId now).version =
      some (Task.generateVersionHash
        { t with id := newId, created := now, started := 0, completed := 0,
                 status := TaskStatus.defined }) ∧
    (t.copy newId now).episode = t.episode ∧
    (t.copy newId now).threads = t.threads ∧
    (t.copy newId now).prompts = t.prompts ∧
    (t.copy newId now).reviews = t.reviews ∧
    (t.copy newId now).reviewRequirements = t.reviewRequirements ∧
    (t.copy newId now).labels = t.labels ∧
    (t.copy newId now).tags = t.tags ∧
    (t.copy newId now).parameters = t.parameters := by
  exact ⟨h, rfl, rfl, rfl, rfl, rfl, rfl, rfl, rfl, rfl, rfl, rfl, rfl, rfl, rfl⟩

/-- C4 witness: the copy spec applied to a concrete task with one recorded
event. -/
theorem task_copy_spec_witness :
    ("t2" ≠ copySrcTask.id) ∧
    ((copySrcTask.copy "t2" 5).id ≠ copySrcTask.id ∧
     (copySrcTask.copy "t2" 5).id = "t2" ∧
     (copySrcTask.copy "t2" 5).created = 5 ∧
     (copySrcTask.copy "t2" 5).started = 0 ∧
     (copySrcTask.copy "t2" 5).completed = 0 ∧
     (copySrcTask.copy "t2" 5).status = TaskStatus.defined ∧
     (copySrcTask.copy "t2" 5).version =
       some (Task.generateVersionHash
         { copySrcTask with id := "t2", created := 5, started := 0, completed := 0,
                            status := TaskStatus.defined }) ∧
     (copySrcTask.copy "t2" 5).episode = copySrcTask.episode ∧
     (copySrcTask.copy "t2" 5).threads = copySrcTask.threads ∧
     (copySrcTask.copy "t2" 5).prompts = copySrcTask.prompts ∧
     (copySrcTask.copy "t2" 5).reviews = copySrcTask.reviews ∧
     (copySrcTask.copy "t2" 5).reviewRequirements = copySrcTask.reviewRequirements ∧
     (copySrcTask.copy "t2" 5).labels = copySrcTask.labels ∧
     (copySrcTask.copy "t2" 5).tags = copySrcTask.tags ∧
     (copySrcTask.copy "t2" 5).parameters = copySrcTask.parameters) :=
  ⟨by decide, task_copy_spec copySrcTask "t2" 5 (by decide)⟩

/-- C4 counterexample: the copy of a task with one recorded action event has
an episode with that event still in it — not a new empty episode. -/
theorem task_copy_episode_cex :
    (copySrcTask.copy "t2" 5).episode.map (fun ep => ep.actions) =
      some [Act.mk "a1" "click" []] ∧
    (copySrcTask.copy "t2" 5).episode.map (fun ep => ep.actions) ≠ some [] := by
  exact ⟨rfl, by decide⟩

/-- C2.  Corrected: immediately after `save()`, the version equals the
SHA-256 hex digest of the canonical JSON of the V1 projection **as it stood
at entry to `save`** — the hash is computed before `_version` is assigned,
so the projection hashed carries the pre-save version in its `version`
field.  The projection of the task as it stands after the save carries the
new version, and hashing that gives a different digest (see the
counterexample).  The save changes nothing else except creating the episode
when absent. -/
theorem task_save_version (t : Task) (epId : String) :
    (t.save epId).version =
      some (sha256Hex (strBytes (Json.dumps t.toV1Json))) ∧
    (t.save epId).id = t.id ∧ (t.save epId).description = t.description ∧
    (t.save epId).status = t.status ∧ (t.save epId).labels = t.labels ∧
    (t.save epId).reviews = t.reviews ∧
    (match t.episode with
     | some e => (t.save epId).episode = some e
     | none => (t.save epId).episode = some ⟨epId, []⟩) := by
  unfold Task.save Task.generateVersionHash
  rcases he : t.episode with _ | e <;> simp [he]


set_option maxRecDepth 100000 in
/-- C2 counterexample: after `save()`, hashing the projection **as it stands
after the save** (its `version` field now holding the new digest) gives a
different digest than the stored version — the stored version is the hash of
the pre-save projection, and SHA-256 has no fixed point here. -/
theorem task_save_version_cex :
    (saveSrcTask.save "e2").version ≠
      some (sha256Hex (strBytes (Json.dumps ((saveSrcTask.save "e2").toV1Json)))) := by
  decide

/-- `ensure_thread` does not change the assignment fields or the labels. -/
theorem ensureThread_preserves (t : Task) (n th e : String) :
    (t.ensureThread n th e).assignedTo = t.assignedTo ∧
    (t.ensureThread n th e).assignedType = t.assignedType ∧
    (t.ensureThread n th e).labels = t.labels := by
  unfold Task.ensureThread
  split
  · exact ⟨rfl, rfl, rfl⟩
  · obtain ⟨_, _, h3, h4, _, _, _, h8, _⟩ := save_preserves_fields _ e
    exact ⟨h3, h4, h8⟩

/-- A successfully constructed task carries the argument assignment fields
and labels. -/
theorem init_fields (a : TaskInitArgs) (fid : String) (now : Nat)
    (e1 th e2 : String) (t : Task) (h : Task.init a fid now e1 th e2 = .ok t) :
    t.assignedTo = a.assignedTo ∧ t.assignedType = a.assignedType ∧
    t.labels = a.labels := by
  unfold Task.init at h
  by_cases hc : ¬ truthyStr a.remote ∧ ¬ truthyStr a.description
  · rw [if_pos hc] at h; cases h
  · rw [if_neg hc] at h
    rw [← Except.ok.inj h]
    obtain ⟨e1', e2', e3'⟩ := ensureThread_preserves ((_ : Task).save e1) "feed" th e2
    rw [e1', e2', e3']
    obtain ⟨_, _, s3, s4, _, _, _, s8, _⟩ := save_preserves_fields _ e1
    rw [s3, s4, s8]
    exact ⟨rfl, rfl, rfl⟩

/-- A construction with a present, non-empty description succeeds. -/
theorem init_isOk (a : TaskInitArgs) (fid : String) (now : Nat)
    (e1 th e2 : String) (hd : truthyStr a.description = true) :
    ∃ t, Task.init a fid now e1 th e2 = .ok t := by
  unfold Task.init
  rw [if_neg (fun hc => by rw [hd] at hc; exact hc.2 rfl)]
  exact ⟨_, rfl⟩

/-- One eval task: built from the template, it carries the assignment and
the benchmark label. -/
theorem evalTaskOfTemplate_spec (b : Benchmark)
    (assignedTo assignedType remote ownerId : Option String)
    (uuid : Nat → String) (i : Nat) (tpl : TaskTemplate)
    (hd : truthyStr tpl.description = true) :
    ∃ t, evalTaskOfTemplate b assignedTo assignedType remote ownerId uuid i tpl = .ok t ∧
      lookupLabel t.labels "benchmark" = some b.name ∧
      t.assignedTo = assignedTo ∧ t.assignedType = assignedType := by
  unfold evalTaskOfTemplate TaskTemplate.toTask
  obtain ⟨t0, ht0⟩ := init_isOk
    { description := tpl.description
      maxSteps := tpl.maxSteps
      device := tpl.device
      deviceType := tpl.deviceType
      assignedTo := assignedTo
      assignedType := assignedType
      remote := remote
      labels := tpl.labels
      tags := tpl.tags
      ownerId := if truthyStr ownerId then ownerId else tpl.ownerId }
    (uuid (5 * i + 1)) 0 (uuid (5 * i + 2)) (uuid (5 * i + 3)) (uuid (5 * i + 4)) hd
  obtain ⟨f1, f2, _⟩ := init_fields _ _ _ _ _ _ _ ht0
  rw [ht0]
  refine ⟨_, rfl, ?_, ?_, ?_⟩
  · simp only [Except.map]
    exact lookupLabel_upsert_self _ _ _
  · simpa using f1
  · simpa using f2

/-- The eval loop: one task per template, each carrying the benchmark label
and the assignment. -/
theorem evalTasksLoop_spec (b : Benchmark)
    (assignedTo assignedType remote ownerId : Option String)
    (uuid : Nat → String) (tpls : List TaskTemplate)
    (hd : ∀ tpl ∈ tpls, truthyStr tpl.description = true) :
    ∀ i, ∃ ts, evalTasksLoop b assignedTo assignedType remote ownerId uuid i tpls = .ok ts ∧
      ts.length = tpls.length ∧
      ∀ t ∈ ts, lookupLabel t.labels "benchmark" = some b.name ∧
        t.assignedTo = assignedTo ∧ t.assignedType = assignedType := by
  induction tpls with
  | nil => intro i; exact ⟨[], rfl, rfl, by intro t ht; cases ht⟩
  | cons tpl rest ih =>
      intro i
      obtain ⟨t, ht, hlab, ha1, ha2⟩ := evalTaskOfTemplate_spec b assignedTo assignedType
        remote ownerId uuid i tpl (hd tpl (.head rest))
      obtain ⟨ts, hts, hlen, hall⟩ := ih (fun q hq => hd q (.tail tpl hq)) (i + 1)
      refine ⟨t :: ts, ?_, by simp [hlen], ?_⟩
      · unfold evalTasksLoop
        rw [ht, hts]
      · intro u hu
        cases hu with
        | head => exact ⟨hlab, ha1, ha2⟩
        | tail _ hmem => exact hall u hmem

/-- C7.  `benchmark.eval(assigned_to, assigned_type)` materialises exactly
one fresh `Task` per template via `template.to_task`, each carrying the
label `benchmark = benchmark.name` and the given assignment.  The
description hypothesis is `Task.__init__`'s precondition (a task needs a
description or a remote endpoint; `Benchmark.eval` passes no remote). -/
theorem benchmark_eval_materialises (b : Benchmark)
    (assignedTo assignedType ownerId : Option String) (uuid : Nat → String)
    (hd : ∀ tpl ∈ b.tasks, truthyStr tpl.description = true) :
    ∃ ev, Eval.init b assignedTo assignedType none ownerId uuid = .ok ev ∧
      ev.tasks.length = b.tasks.length ∧
      ∀ t ∈ ev.tasks, lookupLabel t.labels "benchmark" = some b.name ∧
        t.assignedTo = assignedTo ∧ t.assignedType = assignedType := by
  obtain ⟨ts, hts, hlen, hall⟩ :=
    evalTasksLoop_spec b assignedTo assignedType none ownerId uuid b.tasks hd 0
  refine ⟨{ id := uuid 0, benchmark := b, tasks := ts, ownerId := ownerId,
            assignedTo := assignedTo, assignedType := assignedType }, ?_, hlen, hall⟩
  unfold Eval.init
  rw [hts]

/-- C7 witness: the spec's scenario 5 shape — a benchmark with two templates
evaluated for `test_agent`. -/
theorem benchmark_eval_materialises_witness :
    (∀ tpl ∈ (Benchmark.mkLabelled "b1" "test-bench" "bench" [
        { id := "tp1", description := some "desktop" },
        { id := "tp2", description := some "mobile" }] none).tasks,
      truthyStr tpl.description = true) ∧
    (∃ ev, Eval.init
        (Benchmark.mkLabelled "b1" "test-bench" "bench" [
          { id := "tp1", description := some "desktop" },
          { id := "tp2", description := some "mobile" }] none)
        (some "test_agent") (some "pizza") none none (fun n => toString n) = .ok ev ∧
      ev.tasks.length = (Benchmark.mkLabelled "b1" "test-bench" "bench" [
          { id := "tp1", description := some "desktop" },
          { id := "tp2", description := some "mobile" }] none).tasks.length ∧
      ∀ t ∈ ev.tasks, lookupLabel t.labels "benchmark" =
          some (Benchmark.mkLabelled "b1" "test-bench" "bench" [
            { id := "tp1", description := some "desktop" },
            { id := "tp2", description := some "mobile" }] none).name ∧
        t.assignedTo = some "test_agent" ∧ t.assignedType = some "pizza") :=
  ⟨by decide, benchmark_eval_materialises _ (some "test_agent") (some "pizza") none
    (fun n => toString n) (by decide)⟩

/-- The base64 alphabet decodes its own characters. -/
theorem b64idx_b64c : ∀ n, n < 64 → b64idx (b64c n) = n := by decide

/-- No alphabet character is the padding character. -/
theorem b64c_ne_pad : ∀ n, n < 64 → b64c n ≠ '=' := by decide

/-- Decoding inverts encoding on byte sequences. -/
theorem b64_roundtrip : ∀ (bs : List Nat), (∀ x ∈ bs, x < 256) →
    b64decodeChars (b64encodeBytes bs) = bs
  | [] => fun _ => rfl
  | [a] => fun h => by
      have ha : a < 256 := h a (by simp)
      have h1 : a / 4 < 64 := by omega
      have h2 : a % 4 * 16 < 64 := by omega
      simp only [b64encodeBytes, b64decodeChars]
      rw [if_true, b64idx_b64c _ h1, b64idx_b64c _ h2]
      congr 1
      omega
  | [a, b] => fun h => by
      have ha : a < 256 := h a (by simp)
      have hb : b < 256 := h b (by simp)
      have h1 : a / 4 < 64 := by omega
      have h2 : a % 4 * 16 + b / 16 < 64 := by omega
      have h3 : b % 16 * 4 < 64 := by omega
      simp only [b64encodeBytes, b64decodeChars]
      rw [if_neg (b64c_ne_pad _ h3), if_true,
        b64idx_b64c _ h1, b64idx_b64c _ h2, b64idx_b64c _ h3]
      congr 1
      · omega
      · congr 1
        omega
  | a :: b :: c :: rest => fun h => by
      have ha : a < 256 := h a (by simp)
      have hb : b < 256 := h b (by simp)
      have hc : c < 256 := h c (by simp)
      have h1 : a / 4 < 64 := by omega
      have h2 : a % 4 * 16 + b / 16 < 64 := by omega
      have h3 : b % 16 * 4 + c / 64 < 64 := by omega
      have h4 : c % 64 < 64 := by omega
      have ih := b64_roundtrip rest (fun x hx => h x (by simp [hx]))
      simp only [b64encodeBytes, b64decodeChars]
      rw [if_neg (b64c_ne_pad _ h3), if_neg (b64c_ne_pad _ h4),
        b64idx_b64c _ h1, b64idx_b64c _ h2, b64idx_b64c _ h3, b64idx_b64c _ h4, ih]
      congr 1
      · omega
      · congr 1
        · omega
        · congr 1
          omega

/-- The keyed byte-XOR stream is an involution at every offset. -/
theorem fernetXor_involutive (key : List Nat) :
    ∀ (i : Nat) (xs : List Nat), fernetXor key i (fernetXor key i xs) = xs := by
  intro i xs
  induction xs generalizing i with
  | nil => rfl
  | cons x rest ih =>
      simp only [fernetXor]
      rw [Nat.xor_assoc, Nat.xor_self, Nat.xor_zero, ih]

/-- The stream keeps the length. -/
theorem fernetXor_length (key : List Nat) :
    ∀ (i : Nat) (xs : List Nat), (fernetXor key i xs).length = xs.length := by
  intro i xs
  induction xs generalizing i with
  | nil => rfl
  | cons x rest ih => simp [fernetXor, ih]

/-- The stream keeps bytes below 256 when the key bytes are. -/
theorem fernetXor_lt (key : List Nat) (hkey : ∀ k ∈ key, k < 256) :
    ∀ (i : Nat) (xs : List Nat), (∀ x ∈ xs, x < 256) →
      ∀ y ∈ fernetXor key i xs, y < 256 := by
  intro i xs
  induction xs generalizing i with
  | nil => intro _ y hy; cases hy
  | cons x rest ih =>
      intro hx y hy
      simp only [fernetXor, List.mem_cons] at hy
      rcases hy with hy | hy
      · have hxl : x < 2 ^ 8 := hx x (by simp)
        have hkl : key.getD (i % key.length) 0 < 2 ^ 8 := by
          rw [List.getD_eq_getElem?_getD]
          rcases hget : key[i % key.length]? with _ | k
          · simp
          · have hmem : k ∈ key := by
              have := List.getElem?_eq_some_iff.mp hget
              obtain ⟨hlt, hk⟩ := this
              exact hk ▸ List.getElem_mem hlt
            simpa using hkey k hmem
        subst hy
        exact Nat.xor_lt_two_pow hxl hkl
      · exact ih (i + 1) (fun z hz => hx z (by simp [hz])) y hy

/-- Validation inverts the dump for clean (ASCII, unescaped) descriptors. -/
theorem deviceValidateJson_dump (d : V1Device)
    (h : ∀ c ∈ d.descriptor.data, c.toNat < 128 ∧ c ≠ '"' ∧ c ≠ '\\') :
    deviceValidateJson (deviceJsonBytes d) = some d := by
  unfold deviceValidateJson deviceJsonBytes
  set header := strBytes "\x7b\"descriptor\":\"" with hheader
  set footer := strBytes "\"\x7d" with hfooter
  set mid := strBytes d.descriptor with hmid
  have hhl : header.length = 15 := by rw [hheader]; rfl
  have hfl : footer.length = 2 := by rw [hfooter]; rfl
  have hlen : (header ++ mid ++ footer).length = 15 + mid.length + 2 := by
    simp only [List.length_append, hhl, hfl]
  rw [hlen]
  rw [if_neg (by omega)]
  have htake : (header ++ mid ++ footer).take 15 = header := by
    rw [List.append_assoc, show (15 : Nat) = header.length from hhl.symm,
      List.take_left]
  rw [if_neg (fun hc => hc htake)]
  have hdrop : (header ++ mid ++ footer).drop (15 + mid.length + 2 - 2) = footer := by
    have h1 : 15 + mid.length + 2 - 2 = (header ++ mid).length := by
      simp only [List.length_append, hhl]
      omega
    rw [h1, List.drop_left]
  rw [if_neg (fun hc => hc hdrop)]
  have hmid2 : ((header ++ mid ++ footer).drop 15).take (15 + mid.length + 2 - 17) =
      mid := by
    have h2 : 15 + mid.length + 2 - 17 = mid.length := by omega
    rw [h2, List.append_assoc, show (15 : Nat) = header.length from hhl.symm,
      List.drop_left, List.take_left]
  rw [hmid2]
  have hall : ∀ x ∈ mid, (x < 128 ∧ x ≠ 34 ∧ x ≠ 92) := by
    intro x hx
    rw [hmid] at hx
    obtain ⟨c, hc, hcx⟩ := List.mem_map.mp hx
    obtain ⟨hc1, hc2, hc3⟩ := h c hc
    subst hcx
    refine ⟨hc1, ?_, ?_⟩
    · intro he
      exact hc2 (by rw [← Char.ofNat_toNat c, he])
    · intro he
      exact hc3 (by rw [← Char.ofNat_toNat c, he])
  rw [if_pos (by
    rw [List.all_eq_true]
    intro x hx
    have := hall x hx
    simpa using this)]
  have hback : mid.map Char.ofNat = d.descriptor.data := by
    rw [hmid]
    unfold strBytes
    rw [List.map_map]
    have hco : (Char.ofNat ∘ Char.toNat) = id := by
      funext c
      exact Char.ofNat_toNat c
    rw [hco, List.map_id]
  rw [hback]

/-- A nonempty byte sequence encodes to a nonempty character sequence. -/
theorem b64encodeBytes_ne_nil : ∀ (bs : List Nat), bs ≠ [] → b64encodeBytes bs ≠ []
  | [], h => absurd rfl h
  | [_], _ => by simp [b64encodeBytes]
  | [_, _], _ => by simp [b64encodeBytes]
  | _ :: _ :: _ :: _, _ => by simp [b64encodeBytes]

/-- C9.  The vault round-trips: decrypting an encrypted device descriptor
recovers it, and both directions map `None` to `None` (`decrypt_device` also
nulls the empty string, which is falsy).  The hypothesis restricts to
descriptors whose payload is ASCII without JSON-escaped characters — the
domain the byte-level model of the external pydantic codec covers. -/
theorem device_vault_roundtrip (d : V1Device)
    (h : ∀ c ∈ d.descriptor.data, c.toNat < 128 ∧ c ≠ '"' ∧ c ≠ '\\') :
    Task.decryptDevice (Task.encryptDevice (some d)) = some d ∧
    Task.encryptDevice none = none ∧
    Task.decryptDevice none = none := by
  refine ⟨?_, rfl, rfl⟩
  unfold Task.encryptDevice Task.decryptDevice
  have hmsg256 : ∀ x ∈ deviceJsonBytes d, x < 256 := by
    intro x hx
    unfold deviceJsonBytes at hx
    rcases List.mem_append.mp hx with hx2 | hx2
    · rcases List.mem_append.mp hx2 with hx3 | hx3
      · have hh : ∀ y ∈ strBytes "\x7b\"descriptor\":\"", y < 256 := by decide
        exact hh x hx3
      · obtain ⟨c, hc, hcx⟩ := List.mem_map.mp hx3
        have := (h c hc).1
        omega
    · have hf : ∀ y ∈ strBytes "\"\x7d", y < 256 := by decide
      exact hf x hx2
  have hkey256 : ∀ k ∈ encryptionKey, k < 256 := by decide
  have hct256 : ∀ y ∈ fernetEncrypt encryptionKey (deviceJsonBytes d), y < 256 :=
    fernetXor_lt encryptionKey hkey256 0 (deviceJsonBytes d) hmsg256
  have hmsgne : deviceJsonBytes d ≠ [] := by
    unfold deviceJsonBytes
    intro hc
    have := congrArg List.length hc
    simp [strBytes] at this
  have hctne : fernetEncrypt encryptionKey (deviceJsonBytes d) ≠ [] := by
    intro hc
    have hl := congrArg List.length hc
    have hl2 : (fernetEncrypt encryptionKey (deviceJsonBytes d)).length =
        (deviceJsonBytes d).length := fernetXor_length encryptionKey 0 (deviceJsonBytes d)
    rw [hl2] at hl
    simp only [List.length_nil] at hl
    exact hmsgne (List.length_eq_zero.mp hl)
  have hsne : String.mk (b64encodeBytes (fernetEncrypt encryptionKey (deviceJsonBytes d))) ≠ "" := by
    intro hc
    exact b64encodeBytes_ne_nil _ hctne (congrArg String.data hc)
  show (if String.mk (b64encodeBytes (fernetEncrypt encryptionKey (deviceJsonBytes d))) = ""
      then none
      else deviceValidateJson (fernetDecrypt encryptionKey
        (b64decodeChars (b64encodeBytes (fernetEncrypt encryptionKey (deviceJsonBytes d)))))) =
    some d
  rw [if_neg hsne]
  rw [b64_roundtrip _ hct256]
  unfold fernetDecrypt fernetEncrypt
  rw [fernetXor_involutive]
  exact deviceValidateJson_dump d h

/-- C9 witness: a concrete clean descriptor round-trips. -/
theorem device_vault_roundtrip_witness :
    (∀ c ∈ (V1Device.mk "desktop: chrome-1").descriptor.data,
      c.toNat < 128 ∧ c ≠ '"' ∧ c ≠ '\\') ∧
    (Task.decryptDevice (Task.encryptDevice (some (V1Device.mk "desktop: chrome-1"))) =
        some (V1Device.mk "desktop: chrome-1") ∧
      Task.encryptDevice none = none ∧
      Task.decryptDevice none = none) :=
  ⟨by decide, device_vault_roundtrip (V1Device.mk "desktop: chrome-1") (by decide)⟩

/-- A pending row matching two `(task_id, user, requirement_id)` filters
forces the two keys equal. -/
theorem pendingMatches_key_eq {row : PendingRow} {t u rid t2 u2 rid2 : String}
    (h1 : pendingMatches row t u rid = true)
    (h2 : pendingMatches row t2 u2 rid2 = true) :
    t = t2 ∧ u = u2 ∧ rid = rid2 := by
  unfold pendingMatches at h1 h2
  rw [Bool.and_eq_true, Bool.and_eq_true] at h1 h2
  have ha := of_decide_eq_true h1.1.1
  have hb := of_decide_eq_true h1.1.2
  have hc := of_decide_eq_true h1.2
  have ha2 := of_decide_eq_true h2.1.1
  have hb2 := of_decide_eq_true h2.1.2
  have hc2 := of_decide_eq_true h2.2
  exact ⟨ha.symm.trans ha2, Option.some.inj (hb.symm.trans hb2),
    Option.some.inj (hc.symm.trans hc2)⟩

theorem pendingMatches_self (t u rid : String) :
    pendingMatches ⟨t, some u, none, some rid⟩ t u rid = true := by
  simp [pendingMatches]

theorem keyCount_ensure_self (tbl : List PendingRow) (t u rid : String) :
    1 ≤ keyCount (ensurePendingReviewer tbl t u rid) t u rid := by
  unfold ensurePendingReviewer keyCount
  by_cases h : tbl.any (fun r => pendingMatches r t u rid) = true
  · rw [if_pos h]
    obtain ⟨a, ha, hpa⟩ := List.any_eq_true.mp h
    exact List.countP_pos_iff.mpr ⟨a, ha, hpa⟩
  · rw [if_neg h, List.countP_append]
    have hone : List.countP (fun row => pendingMatches row t u rid)
        [⟨t, some u, none, some rid⟩] = 1 := by
      simp [List.countP_cons, pendingMatches_self]
    omega

theorem keyCount_ensure_other (tbl : List PendingRow) (t u rid a b c : String)
    (h : ¬(t = a ∧ u = b ∧ rid = c)) :
    keyCount (ensurePendingReviewer tbl t u rid) a b c = keyCount tbl a b c := by
  unfold ensurePendingReviewer keyCount
  by_cases hx : tbl.any (fun r => pendingMatches r t u rid) = true
  · rw [if_pos hx]
  · rw [if_neg hx, List.countP_append]
    cases hpm : pendingMatches ⟨t, some u, none, some rid⟩ a b c with
    | true => exact absurd (pendingMatches_key_eq (pendingMatches_self t u rid) hpm) h
    | false => simp [List.countP_cons, hpm]

theorem keyCount_ensure_le (tbl : List PendingRow) (t u rid a b c : String) :
    keyCount tbl a b c ≤ keyCount (ensurePendingReviewer tbl t u rid) a b c := by
  unfold ensurePendingReviewer keyCount
  by_cases hx : tbl.any (fun r => pendingMatches r t u rid) = true
  · rw [if_pos hx]
  · rw [if_neg hx, List.countP_append]
    omega

theorem uniqKeys_ensure (tbl : List PendingRow) (h : uniqKeys tbl) (t u rid : String) :
    uniqKeys (ensurePendingReviewer tbl t u rid) := by
  intro a b c
  by_cases hk : t = a ∧ u = b ∧ rid = c
  · obtain ⟨h1, h2, h3⟩ := hk
    subst h1; subst h2; subst h3
    unfold ensurePendingReviewer keyCount
    by_cases hx : tbl.any (fun r => pendingMatches r t u rid) = true
    · rw [if_pos hx]; exact h t u rid
    · rw [if_neg hx, List.countP_append]
      have h0 : tbl.countP (fun row => pendingMatches row t u rid) = 0 := by
        rw [List.countP_eq_zero]
        intro r hr hp
        exact hx (List.any_eq_true.mpr ⟨r, hr, hp⟩)
      have hone : List.countP (fun row => pendingMatches row t u rid)
          [⟨t, some u, none, some rid⟩] = 1 := by
        simp [List.countP_cons, pendingMatches_self]
      omega
  · rw [keyCount_ensure_other tbl t u rid a b c hk]
    exact h a b c

theorem mem_ensure (tbl : List PendingRow) (t u rid : String) (row : PendingRow)
    (h : row ∈ ensurePendingReviewer tbl t u rid) :
    row ∈ tbl ∨ row = ⟨t, some u, none, some rid⟩ := by
  unfold ensurePendingReviewer at h
  by_cases hx : tbl.any (fun r => pendingMatches r t u rid) = true
  · rw [if_pos hx] at h; exact Or.inl h
  · rw [if_neg hx] at h
    rcases List.mem_append.mp h with h1 | h1
    · exact Or.inl h1
    · exact Or.inr (List.mem_singleton.mp h1)

theorem keyCount_remove_self (tbl : List PendingRow) (t u rid : String) :
    keyCount (removePendingReviewer tbl t u rid) t u rid = keyCount tbl t u rid - 1 := by
  unfold removePendingReviewer keyCount
  induction tbl with
  | nil => rfl
  | cons r rest ih =>
    rw [List.eraseP_cons]
    cases hpm : pendingMatches r t u rid with
    | true =>
      simp only [cond_true, List.countP_cons, hpm, if_true]
      omega
    | false =>
      simp only [cond_false, List.countP_cons, hpm, Bool.false_eq_true, if_false]
      omega

theorem keyCount_remove_other (tbl : List PendingRow) (t u rid a b c : String)
    (h : ¬(t = a ∧ u = b ∧ rid = c)) :
    keyCount (removePendingReviewer tbl t u rid) a b c = keyCount tbl a b c := by
  unfold removePendingReviewer keyCount
  induction tbl with
  | nil => rfl
  | cons r rest ih =>
    rw [List.eraseP_cons]
    cases hpm : pendingMatches r t u rid with
    | true =>
      have hpm2 : pendingMatches r a b c = false := by
        cases hq : pendingMatches r a b c with
        | true => exact absurd (pendingMatches_key_eq hpm hq) h
        | false => rfl
      simp only [cond_true, List.countP_cons, hpm2, Bool.false_eq_true, if_false]
      omega
    | false =>
      simp only [cond_false, List.countP_cons]
      omega

theorem keyCount_remove_le (tbl : List PendingRow) (t u rid a b c : String) :
    keyCount (removePendingReviewer tbl t u rid) a b c ≤ keyCount tbl a b c := by
  by_cases hk : t = a ∧ u = b ∧ rid = c
  · obtain ⟨h1, h2, h3⟩ := hk
    subst h1; subst h2; subst h3
    rw [keyCount_remove_self]
    omega
  · rw [keyCount_remove_other tbl t u rid a b c hk]

theorem uniqKeys_remove (tbl : List PendingRow) (h : uniqKeys tbl) (t u rid : String) :
    uniqKeys (removePendingReviewer tbl t u rid) := by
  intro a b c
  exact le_trans (keyCount_remove_le tbl t u rid a b c) (h a b c)

theorem remove_sublist (tbl : List PendingRow) (t u rid : String) :
    (removePendingReviewer tbl t u rid).Sublist tbl :=
  List.eraseP_sublist tbl

theorem keyCount_removeFold_le (l : List String) (tbl : List PendingRow)
    (tid rid a b c : String) :
    keyCount (l.foldl (fun acc u => removePendingReviewer acc tid u rid) tbl) a b c ≤
      keyCount tbl a b c := by
  induction l generalizing tbl with
  | nil => exact le_refl _
  | cons x xs ih =>
    rw [List.foldl_cons]
    exact le_trans (ih _) (keyCount_remove_le tbl tid x rid a b c)

theorem keyCount_removeFold_zero (l : List String) (tbl : List PendingRow)
    (tid rid p : String) (hp : p ∈ l) (hle : keyCount tbl tid p rid ≤ 1) :
    keyCount (l.foldl (fun acc u => removePendingReviewer acc tid u rid) tbl)
      tid p rid = 0 := by
  induction l generalizing tbl with
  | nil => exact absurd hp (List.not_mem_nil p)
  | cons x xs ih =>
    rw [List.foldl_cons]
    by_cases hx : x = p
    · subst hx
      have h0 : keyCount (removePendingReviewer tbl tid x rid) tid x rid = 0 := by
        rw [keyCount_remove_self]
        omega
      have hmono := keyCount_removeFold_le xs (removePendingReviewer tbl tid x rid)
        tid rid tid x rid
      omega
    · rcases List.mem_cons.mp hp with h1 | h1
      · exact absurd h1.symm hx
      · refine ih (removePendingReviewer tbl tid x rid) h1 ?_
        rw [keyCount_remove_other tbl tid x rid tid p rid (fun hc => hx hc.2.1)]
        exact hle

theorem keyCount_removeFold_other (l : List String) (tbl : List PendingRow)
    (tid rid a b c : String) (h : ¬(tid = a ∧ rid = c)) :
    keyCount (l.foldl (fun acc u => removePendingReviewer acc tid u rid) tbl) a b c =
      keyCount tbl a b c := by
  induction l generalizing tbl with
  | nil => rfl
  | cons x xs ih =>
    rw [List.foldl_cons, ih,
      keyCount_remove_other tbl tid x rid a b c (fun hc => h ⟨hc.1, hc.2.2⟩)]

theorem uniqKeys_removeFold (l : List String) (tbl : List PendingRow)
    (tid rid : String) (h : uniqKeys tbl) :
    uniqKeys (l.foldl (fun acc u => removePendingReviewer acc tid u rid) tbl) := by
  induction l generalizing tbl with
  | nil => exact h
  | cons x xs ih =>
    rw [List.foldl_cons]
    exact ih _ (uniqKeys_remove tbl h tid x rid)

theorem removeFold_sublist (l : List String) (tbl : List PendingRow)
    (tid rid : String) :
    (l.foldl (fun acc u => removePendingReviewer acc tid u rid) tbl).Sublist tbl := by
  induction l generalizing tbl with
  | nil => exact List.Sublist.refl tbl
  | cons x xs ih =>
    rw [List.foldl_cons]
    exact (ih _).trans (remove_sublist tbl tid x rid)

theorem keyCount_ensureFold_le (l : List String) (tbl : List PendingRow)
    (tid rid a b c : String) :
    keyCount tbl a b c ≤
      keyCount (l.foldl (fun acc u => ensurePendingReviewer acc tid u rid) tbl) a b c := by
  induction l generalizing tbl with
  | nil => exact le_refl _
  | cons x xs ih =>
    rw [List.foldl_cons]
    exact le_trans (keyCount_ensure_le tbl tid x rid a b c) (ih _)

theorem keyCount_ensureFold_one (l : List String) (tbl : List PendingRow)
    (tid rid p : String) (hp : p ∈ l) :
    1 ≤ keyCount (l.foldl (fun acc u => ensurePendingReviewer acc tid u rid) tbl)
      tid p rid := by
  induction l generalizing tbl with
  | nil => exact absurd hp (List.not_mem_nil p)
  | cons x xs ih =>
    rw [List.foldl_cons]
    by_cases hx : x = p
    · subst hx
      exact le_trans (keyCount_ensure_self tbl tid x rid)
        (keyCount_ensureFold_le xs _ tid rid tid x rid)
    · rcases List.mem_cons.mp hp with h1 | h1
      · exact absurd h1.symm hx
      · exact ih _ h1

theorem keyCount_ensureFold_other (l : List String) (tbl : List PendingRow)
    (tid rid a b c : String) (h : ¬(tid = a ∧ rid = c)) :
    keyCount (l.foldl (fun acc u => ensurePendingReviewer acc tid u rid) tbl) a b c =
      keyCount tbl a b c := by
  induction l generalizing tbl with
  | nil => rfl
  | cons x xs ih =>
    rw [List.foldl_cons, ih,
      keyCount_ensure_other tbl tid x rid a b c (fun hc => h ⟨hc.1, hc.2.2⟩)]

theorem uniqKeys_ensureFold (l : List String) (tbl : List PendingRow)
    (tid rid : String) (h : uniqKeys tbl) :
    uniqKeys (l.foldl (fun acc u => ensurePendingReviewer acc tid u rid) tbl) := by
  induction l generalizing tbl with
  | nil => exact h
  | cons x xs ih =>
    rw [List.foldl_cons]
    exact ih _ (uniqKeys_ensure tbl h tid x rid)

theorem mem_ensureFold (l : List String) (tbl : List PendingRow)
    (tid rid : String) (row : PendingRow)
    (h : row ∈ l.foldl (fun acc u => ensurePendingReviewer acc tid u rid) tbl) :
    row ∈ tbl ∨ row.requirementId = some rid := by
  induction l generalizing tbl with
  | nil => exact Or.inl h
  | cons x xs ih =>
    rw [List.foldl_cons] at h
    rcases ih _ h with h1 | h1
    · rcases mem_ensure tbl tid x rid row h1 with h2 | h2
      · exact Or.inl h2
      · exact Or.inr (by rw [h2])
    · exact Or.inr h1

theorem keyCount_pos_of_mem {tbl : List PendingRow} {row : PendingRow}
    {a b c : String} (h : row ∈ tbl) (hpm : pendingMatches row a b c = true) :
    0 < keyCount tbl a b c := by
  unfold keyCount
  exact List.countP_pos_iff.mpr ⟨row, h, hpm⟩

theorem exists_mem_of_keyCount_pos {tbl : List PendingRow} {a b c : String}
    (h : 0 < keyCount tbl a b c) :
    ∃ row ∈ tbl, pendingMatches row a b c = true := by
  unfold keyCount at h
  exact List.countP_pos_iff.mp h

theorem keyCount_step_main (t : Task) (ep : EpisodeM) (tbl : List PendingRow)
    (req : ReviewRequirement) (p : String) (huniq : uniqKeys tbl)
    (hp : p ∈ req.users ++ req.agents) :
    if req.numberRequired ≤
        ((req.agents ++ req.users).filter (fun u => t.partySatisfied ep u)).length then
      keyCount (updateForRequirement t ep tbl req) t.id p req.id = 0
    else
      1 ≤ keyCount (updateForRequirement t ep tbl req) t.id p req.id := by
  unfold updateForRequirement
  by_cases hc : req.numberRequired ≤
      ((req.agents ++ req.users).filter (fun u => t.partySatisfied ep u)).length
  · rw [if_pos hc, if_pos hc]
    rcases List.mem_append.mp hp with hu | ha
    · have h1 : keyCount
          (req.users.foldl (fun a u => removePendingReviewer a t.id u req.id) tbl)
          t.id p req.id = 0 :=
        keyCount_removeFold_zero req.users tbl t.id req.id p hu (huniq t.id p req.id)
      have h2 := keyCount_removeFold_le req.agents
        (req.users.foldl (fun a u => removePendingReviewer a t.id u req.id) tbl)
        t.id req.id t.id p req.id
      omega
    · have h1 : keyCount
          (req.users.foldl (fun a u => removePendingReviewer a t.id u req.id) tbl)
          t.id p req.id ≤ 1 :=
        le_trans (keyCount_removeFold_le req.users tbl t.id req.id t.id p req.id)
          (huniq t.id p req.id)
      exact keyCount_removeFold_zero req.agents _ t.id req.id p ha h1
  · rw [if_neg hc, if_neg hc]
    rcases List.mem_append.mp hp with hu | ha
    · exact le_trans (keyCount_ensureFold_one req.users tbl t.id req.id p hu)
        (keyCount_ensureFold_le req.agents _ t.id req.id t.id p req.id)
    · exact keyCount_ensureFold_one req.agents _ t.id req.id p ha

theorem keyCount_step_other (t : Task) (ep : EpisodeM) (tbl : List PendingRow)
    (req : ReviewRequirement) (a b c : String) (h : ¬(t.id = a ∧ req.id = c)) :
    keyCount (updateForRequirement t ep tbl req) a b c = keyCount tbl a b c := by
  unfold updateForRequirement
  by_cases hc : req.numberRequired ≤
      ((req.agents ++ req.users).filter (fun u => t.partySatisfied ep u)).length
  · rw [if_pos hc, keyCount_removeFold_other req.agents _ t.id req.id a b c h,
      keyCount_removeFold_other req.users tbl t.id req.id a b c h]
  · rw [if_neg hc, keyCount_ensureFold_other req.agents _ t.id req.id a b c h,
      keyCount_ensureFold_other req.users tbl t.id req.id a b c h]

theorem uniqKeys_step (t : Task) (ep : EpisodeM) (tbl : List PendingRow)
    (req : ReviewRequirement) (h : uniqKeys tbl) :
    uniqKeys (updateForRequirement t ep tbl req) := by
  unfold updateForRequirement
  by_cases hc : req.numberRequired ≤
      ((req.agents ++ req.users).filter (fun u => t.partySatisfied ep u)).length
  · rw [if_pos hc]
    exact uniqKeys_removeFold req.agents _ t.id req.id
      (uniqKeys_removeFold req.users tbl t.id req.id h)
  · rw [if_neg hc]
    exact uniqKeys_ensureFold req.agents _ t.id req.id
      (uniqKeys_ensureFold req.users tbl t.id req.id h)

theorem mem_step (t : Task) (ep : EpisodeM) (tbl : List PendingRow)
    (req : ReviewRequirement) (row : PendingRow)
    (h : row ∈ updateForRequirement t ep tbl req) :
    row ∈ tbl ∨ row.requirementId = some req.id := by
  unfold updateForRequirement at h
  by_cases hc : req.numberRequired ≤
      ((req.agents ++ req.users).filter (fun u => t.partySatisfied ep u)).length
  · rw [if_pos hc] at h
    exact Or.inl (((removeFold_sublist req.agents _ t.id req.id).trans
      (removeFold_sublist req.users tbl t.id req.id)).mem h)
  · rw [if_neg hc] at h
    rcases mem_ensureFold req.agents _ t.id req.id row h with h1 | h1
    · exact mem_ensureFold req.users tbl t.id req.id row h1
    · exact Or.inr h1

theorem step_remove_sublist (t : Task) (ep : EpisodeM) (tbl : List PendingRow)
    (req : ReviewRequirement)
    (hc : req.numberRequired ≤
      ((req.agents ++ req.users).filter (fun u => t.partySatisfied ep u)).length) :
    (updateForRequirement t ep tbl req).Sublist tbl := by
  unfold updateForRequirement
  rw [if_pos hc]
  exact (removeFold_sublist req.agents _ t.id req.id).trans
    (removeFold_sublist req.users tbl t.id req.id)

theorem keyCount_reqFold_other (l : List ReviewRequirement) (t : Task)
    (ep : EpisodeM) (tbl : List PendingRow) (a b c : String)
    (h : ∀ req ∈ l, ¬(t.id = a ∧ req.id = c)) :
    keyCount (l.foldl (updateForRequirement t ep) tbl) a b c = keyCount tbl a b c := by
  induction l generalizing tbl with
  | nil => rfl
  | cons x xs ih =>
    rw [List.foldl_cons, ih _ (fun req hreq => h req (List.mem_cons_of_mem x hreq)),
      keyCount_step_other t ep tbl x a b c (h x (List.mem_cons_self x xs))]

theorem uniqKeys_reqFold (l : List ReviewRequirement) (t : Task) (ep : EpisodeM)
    (tbl : List PendingRow) (h : uniqKeys tbl) :
    uniqKeys (l.foldl (updateForRequirement t ep) tbl) := by
  induction l generalizing tbl with
  | nil => exact h
  | cons x xs ih =>
    rw [List.foldl_cons]
    exact ih _ (uniqKeys_step t ep tbl x h)

theorem mem_reqFold (l : List ReviewRequirement) (t : Task) (ep : EpisodeM)
    (tbl : List PendingRow) (row : PendingRow)
    (h : row ∈ l.foldl (updateForRequirement t ep) tbl) :
    row ∈ tbl ∨ ∃ req ∈ l, row.requirementId = some req.id := by
  induction l generalizing tbl with
  | nil => exact Or.inl h
  | cons x xs ih =>
    rw [List.foldl_cons] at h
    rcases ih _ h with h1 | h1
    · rcases mem_step t ep tbl x row h1 with h2 | h2
      · exact Or.inl h2
      · exact Or.inr ⟨x, List.mem_cons_self x xs, h2⟩
    · obtain ⟨req, hreq, he⟩ := h1
      exact Or.inr ⟨req, List.mem_cons_of_mem x hreq, he⟩

/-- C1 (amended): after the recompute, for every requirement `r` of the task
and every listed party `p` (user or agent), a pending row for
`(task, p, r)` exists **iff** the count of individually-satisfying listed
parties is below `number_required` — regardless of whether `p` itself has
satisfied the requirement.  Hypotheses: the episode is set, requirement ids
are distinct, and the table holds at most one row per key (the state the
store maintains). -/
theorem pending_reviews_recompute (t : Task) (ep : EpisodeM) (tbl : List PendingRow)
    (hep : t.episode = some ep)
    (hids : (t.reviewRequirements.map ReviewRequirement.id).Nodup)
    (hkeys : uniqKeys tbl)
    (r : ReviewRequirement) (hr : r ∈ t.reviewRequirements)
    (p : String) (hp : p ∈ r.users ++ r.agents) :
    ∃ out, t.updatePendingReviews tbl = some out ∧
      ((∃ row ∈ out, pendingMatches row t.id p r.id = true) ↔
        ((r.agents ++ r.users).filter (fun u => t.partySatisfied ep u)).length <
          r.numberRequired) := by
  refine ⟨t.reviewRequirements.foldl (updateForRequirement t ep) tbl, ?_, ?_⟩
  · unfold Task.updatePendingReviews
    rw [hep]
  obtain ⟨l1, l2, hsplit⟩ := List.append_of_mem hr
  rw [hsplit] at hids
  rw [List.map_append, List.map_cons] at hids
  have hd := List.disjoint_of_nodup_append hids
  have hnd2 := (List.nodup_append.mp hids).2.1
  have h1ne : ∀ req ∈ l1, req.id ≠ r.id := by
    intro req hreq he
    exact hd (List.mem_map_of_mem ReviewRequirement.id hreq)
      (he ▸ List.mem_cons_self r.id (l2.map ReviewRequirement.id))
  have h2ne : ∀ req ∈ l2, req.id ≠ r.id := by
    intro req hreq he
    exact (List.nodup_cons.mp hnd2).1
      (he ▸ List.mem_map_of_mem ReviewRequirement.id hreq)
  rw [hsplit, List.foldl_append, List.foldl_cons]
  have huniq1 : uniqKeys (l1.foldl (updateForRequirement t ep) tbl) :=
    uniqKeys_reqFold l1 t ep tbl hkeys
  have hstep := keyCount_step_main t ep (l1.foldl (updateForRequirement t ep) tbl)
    r p huniq1 hp
  have hframe : keyCount (l2.foldl (updateForRequirement t ep)
      (updateForRequirement t ep (l1.foldl (updateForRequirement t ep) tbl) r))
      t.id p r.id =
      keyCount (updateForRequirement t ep (l1.foldl (updateForRequirement t ep) tbl) r)
      t.id p r.id :=
    keyCount_reqFold_other l2 t ep _ t.id p r.id
      (fun req hreq hcontra => h2ne req hreq hcontra.2)
  by_cases hc : r.numberRequired ≤
      ((r.agents ++ r.users).filter (fun u => t.partySatisfied ep u)).length
  · rw [if_pos hc] at hstep
    constructor
    · intro hrow
      exfalso
      obtain ⟨row, hrow1, hrow2⟩ := hrow
      have := keyCount_pos_of_mem hrow1 hrow2
      omega
    · intro hlt
      omega
  · rw [if_neg hc] at hstep
    constructor
    · intro _
      omega
    · intro _
      exact exists_mem_of_keyCount_pos (by omega)

/-- C10: on a task whose episode holds no action events the per-action
clause is vacuous, so a party individually satisfies a requirement by a
single task-level review alone; and once at least `number_required` listed
parties have task-level reviews, the recompute removes every pending row of
that requirement.  Hypotheses: episode set and empty, distinct requirement
ids, at-most-one-row-per-key table, and every row of the requirement in the
table belongs to this task and a listed party (the only rows the store ever
creates). -/
theorem empty_episode_single_review_clears (t : Task) (ep : EpisodeM)
    (tbl : List PendingRow) (hep : t.episode = some ep) (hempty : ep.actions = [])
    (hids : (t.reviewRequirements.map ReviewRequirement.id).Nodup)
    (hkeys : uniqKeys tbl)
    (r : ReviewRequirement) (hr : r ∈ t.reviewRequirements)
    (hlisted : ∀ row ∈ tbl, row.requirementId = some r.id →
      ∃ u ∈ r.users ++ r.agents, pendingMatches row t.id u r.id = true)
    (hcount : r.numberRequired ≤
      ((r.agents ++ r.users).filter (fun u => t.reviewSatisfied u)).length) :
    (∀ u, t.partySatisfied ep u = t.reviewSatisfied u) ∧
    ∃ out, t.updatePendingReviews tbl = some out ∧
      ∀ row ∈ out, row.requirementId ≠ some r.id := by
  have hvac : ∀ u, t.partySatisfied ep u = t.reviewSatisfied u := by
    intro u
    unfold Task.partySatisfied episodeSatified
    rw [hempty]
    rfl
  refine ⟨hvac, t.reviewRequirements.foldl (updateForRequirement t ep) tbl, ?_, ?_⟩
  · unfold Task.updatePendingReviews
    rw [hep]
  have hcount2 : r.numberRequired ≤
      ((r.agents ++ r.users).filter (fun u => t.partySatisfied ep u)).length := by
    rw [List.filter_congr (fun u _ => hvac u)]
    exact hcount
  obtain ⟨l1, l2, hsplit⟩ := List.append_of_mem hr
  rw [hsplit] at hids
  rw [List.map_append, List.map_cons] at hids
  have hnd2 := (List.nodup_append.mp hids).2.1
  have h1ne : ∀ req ∈ l1, req.id ≠ r.id := by
    intro req hreq he
    exact List.disjoint_of_nodup_append hids
      (List.mem_map_of_mem ReviewRequirement.id hreq)
      (he ▸ List.mem_cons_self r.id (l2.map ReviewRequirement.id))
  have h2ne : ∀ req ∈ l2, req.id ≠ r.id := by
    intro req hreq he
    exact (List.nodup_cons.mp hnd2).1
      (he ▸ List.mem_map_of_mem ReviewRequirement.id hreq)
  rw [hsplit, List.foldl_append, List.foldl_cons]
  have huniq1 : uniqKeys (l1.foldl (updateForRequirement t ep) tbl) :=
    uniqKeys_reqFold l1 t ep tbl hkeys
  -- the table before r's step still satisfies the listing hypothesis
  have hlisted1 : ∀ row ∈ l1.foldl (updateForRequirement t ep) tbl,
      row.requirementId = some r.id →
      ∃ u ∈ r.users ++ r.agents, pendingMatches row t.id u r.id = true := by
    intro row hrow he
    rcases mem_reqFold l1 t ep tbl row hrow with h1 | h1
    · exact hlisted row h1 he
    · obtain ⟨req, hreq, he2⟩ := h1
      exact absurd (Option.some.inj (he2.symm.trans he)) (h1ne req hreq)
  -- after r's step no row of requirement r remains
  have hstepClear : ∀ row ∈ updateForRequirement t ep
      (l1.foldl (updateForRequirement t ep) tbl) r,
      row.requirementId ≠ some r.id := by
    intro row hrow he
    have hmem : row ∈ l1.foldl (updateForRequirement t ep) tbl :=
      (step_remove_sublist t ep _ r hcount2).mem hrow
    obtain ⟨u, hu, hpm⟩ := hlisted1 row hmem he
    have hstep := keyCount_step_main t ep (l1.foldl (updateForRequirement t ep) tbl)
      r u huniq1 hu
    rw [if_pos hcount2] at hstep
    have := keyCount_pos_of_mem hrow hpm
    omega
  intro row hrow he
  rcases mem_reqFold l2 t ep _ row hrow with h1 | h1
  · exact hstepClear row h1 he
  · obtain ⟨req, hreq, he2⟩ := h1
    exact absurd (Option.some.inj (he2.symm.trans he)) (h2ne req hreq)

/-- C1 witness: on `pendingWitTask` (count 0 < 1 required) the recompute
runs and the fixed-point equivalence holds for the listed user `u1`. -/
theorem pending_reviews_recompute_witness :
    "u1" ∈ pendingWitReq.users ++ pendingWitReq.agents ∧
    ∃ out, pendingWitTask.updatePendingReviews [] = some out ∧
      ((∃ row ∈ out, pendingMatches row pendingWitTask.id "u1" pendingWitReq.id = true) ↔
        ((pendingWitReq.agents ++ pendingWitReq.users).filter
          (fun u => pendingWitTask.partySatisfied ⟨"e1", []⟩ u)).length <
          pendingWitReq.numberRequired) :=
  ⟨by decide, pending_reviews_recompute pendingWitTask ⟨"e1", []⟩ [] rfl (by decide)
    (fun a b c => by simp [keyCount]) pendingWitReq (by decide) "u1" (by decide)⟩

/-- C1 counterexample: below the threshold (1 satisfying party of 2
required) the agent `a1`, who has individually satisfied the requirement —
empty episode, task-level review by `a1` — still has a pending row after
the recompute, because the ensure branch ensures **all** listed parties. -/
theorem pending_reviews_satisfied_party_cex :
    pendingCexTask.partySatisfied ⟨"e1", []⟩ "a1" = true ∧
    ((pendingCexReq.agents ++ pendingCexReq.users).filter
      (fun u => pendingCexTask.partySatisfied ⟨"e1", []⟩ u)).length <
      pendingCexReq.numberRequired ∧
    ∃ out, pendingCexTask.updatePendingReviews [] = some out ∧
      ∃ row ∈ out, pendingMatches row "t1" "a1" "r1" = true := by
  refine ⟨by decide, by decide, ⟨[⟨"t1", some "a1", none, some "r1"⟩,
    ⟨"t1", some "a2", none, some "r1"⟩], by decide, by decide⟩⟩

/-- C10 witness: on `clearWitTask` (empty episode, `u1`'s task review meets
the threshold of 1) the recompute clears `u2`'s pending row. -/
theorem empty_episode_single_review_clears_witness :
    clearWitReq.numberRequired ≤
      ((clearWitReq.agents ++ clearWitReq.users).filter
        (fun u => clearWitTask.reviewSatisfied u)).length ∧
    (∀ u, clearWitTask.partySatisfied ⟨"e1", []⟩ u = clearWitTask.reviewSatisfied u) ∧
    ∃ out, clearWitTask.updatePendingReviews clearWitTbl = some out ∧
      ∀ row ∈ out, row.requirementId ≠ some clearWitReq.id :=
  ⟨by decide, empty_episode_single_review_clears clearWitTask ⟨"e1", []⟩ clearWitTbl
    rfl rfl (by decide) (fun a b c => le_trans (List.countP_le_length _) (by decide))
    clearWitReq (by decide) (by decide) (by decide)⟩

end Taskara
